import Mathlib

/-!
# ldns `net.c`: a shallow embedding of the query transport

The development follows `src/net.c`.  Bytes are natural numbers, C signed
counters (`ssize_t`) are integers, and everything the code obtains from the
operating system (what `recv` delivers, what `sendto` returns, whether a
transport attempt produced bytes, the clock) is supplied explicitly.

Loops that the C code does not bound (`while (bytes < 2)`, the `uint8_t`
indexed `for` loop) take a `fuel` argument: `none` means that the loop is
still running after `fuel` iterations.
-/

namespace Ldns

/-! ## The socket seen by `recv` -/

/-- One thing a blocking `recv` call can observe on the stream socket: a
delivery of bytes from the peer, or an error (`recv` returns `-1`; a timeout
under `SO_RCVTIMEO` and every other receive error look the same here). -/
inductive RecvEvent where
  | data (chunk : List Nat)
  | error
  deriving Repr, DecidableEq

/-- The socket is the script of what successive `recv` calls will observe.  When
the script is exhausted the peer has closed the stream and `recv` returns `0`. -/
abbrev Socket := List RecvEvent

/-- The call `recv(sockfd, buf, len, 0)`: the return value, the bytes stored at
`buf`, and the socket afterwards.  A delivery larger than `len` is handed out
`len` bytes at a time; one call never returns more than one delivery. -/
def recv (sock : Socket) (len : Nat) : Int × List Nat × Socket :=
  match sock with
  | [] => (0, [], [])
  | RecvEvent.error :: rest => (-1, [], rest)
  | RecvEvent.data chunk :: rest =>
    let got := chunk.take len
    let left := chunk.drop len
    ((got.length : Int), got, if left.isEmpty then rest else RecvEvent.data left :: rest)

/-- The allocation `XMALLOC(uint8_t, n)`: `n` cells whose initial content is
whatever the allocator left there, given by `junk`. -/
def XMALLOC (junk : Nat → Nat) (n : Nat) : List Nat :=
  (List.range n).map junk

/-- Storing `dat` into the buffer `buf` starting at offset `off` (what `recv`
does with the bytes it returns, and what `memcpy` does). -/
def writeAt (buf : List Nat) (off : Nat) (dat : List Nat) : List Nat :=
  buf.take off ++ dat ++ buf.drop (off + dat.length)

/-- Modelled from the spec: `read_uint16` of `util.h` is not among the sources;
the spec fixes the prefix as a 2-byte unsigned big-endian length. -/
def read_uint16 (wire : List Nat) : Nat :=
  (wire.getD 0 0 % 256) * 256 + wire.getD 1 0 % 256

/-- Modelled from the spec: `write_uint16` of `util.h` is not among the sources;
the spec fixes the prefix as a 2-byte unsigned big-endian length.  The argument
is converted to `uint16_t` first. -/
def write_uint16 (data : Nat) : List Nat :=
  [(data % 65536) / 256, (data % 65536) % 256]

/-! ## `ldns_tcp_read_wire` -/

/-- What `ldns_tcp_read_wire` hands back: `NULL`, or the buffer `wire` together
with the value stored in `*size`. -/
inductive wire_result where
  | null
  | buffer (wire : List Nat) (size : Nat)
  deriving Repr, DecidableEq

/-- The first loop of `ldns_tcp_read_wire`:
`while (bytes < 2) { bytes = recv(sockfd, wire, 2, 0); if (bytes == -1) return NULL; }`.
Every call stores at the start of `wire` and overwrites `bytes`.
Result: `none` when out of fuel, `some none` for `return NULL`, otherwise the
two-byte buffer and the socket after the loop. -/
def read_length : Nat → Socket → List Nat → Int → Option (Option (List Nat × Socket))
  | 0, _, _, _ => none
  | fuel + 1, sock, wire, bytes =>
    if bytes < 2 then
      let r := recv sock 2
      let wire1 := writeAt wire 0 r.2.1
      if r.1 = -1 then some none
      else read_length fuel r.2.2 wire1 r.1
    else some (some (wire, sock))

/-- The second loop of `ldns_tcp_read_wire`:
`while (bytes < (ssize_t) wire_size) { bytes += recv(sockfd, wire + bytes, wire_size - bytes, 0); if (bytes == -1) return NULL; }`
followed by `*size = (size_t) bytes; return wire;`. -/
def read_body : Nat → Socket → List Nat → Nat → Int → Option wire_result
  | 0, _, _, _, _ => none
  | fuel + 1, sock, wire, wire_size, bytes =>
    if bytes < (wire_size : Int) then
      let r := recv sock ((wire_size : Int) - bytes).toNat
      let wire1 := writeAt wire bytes.toNat r.2.1
      let bytes1 := bytes + r.1
      if bytes1 = -1 then some wire_result.null
      else read_body fuel r.2.2 wire1 wire_size bytes1
    else some (wire_result.buffer wire bytes.toNat)

/-- The function `ldns_tcp_read_wire(sockfd, &size)`.  `none`: still looping
after `fuel` iterations of one of its loops. -/
def ldns_tcp_read_wire (junk : Nat → Nat) (fuel : Nat) (sock : Socket) : Option wire_result :=
  match read_length fuel sock (XMALLOC junk 2) 0 with
  | none => none
  | some none => some wire_result.null
  | some (some (wire, sock1)) =>
    let wire_size := read_uint16 wire
    read_body fuel sock1 (XMALLOC junk wire_size) wire_size 0

/-! ## `ldns_tcp_send_query` -/

/-- The conversion `(size_t) bytes` of an `ssize_t` (64-bit `size_t`). -/
def to_size_t (x : Int) : Nat := (x % (2 : Int) ^ 64).toNat

/-- What one call of `ldns_tcp_send_query` does: the buffer and length it passes
to its only `sendto`, and its return value. -/
structure send_query_result where
  sendbuf : List Nat
  len : Nat
  ret : Int
  deriving Repr, DecidableEq

/-- The function `ldns_tcp_send_query(qbin, sockfd, to, tolen)`.  `qbin` holds
the serialized query (`ldns_buffer_position` bytes starting at
`ldns_buffer_export`); `sendto` gives the return value of the system call for
the buffer and length it is handed. -/
def ldns_tcp_send_query (junk : Nat → Nat) (qbin : List Nat) (sendto : List Nat → Nat → Int) : send_query_result :=
  let position := qbin.length
  let sendbuf := writeAt (writeAt (XMALLOC junk (position + 2)) 0 (write_uint16 position)) 2 qbin
  let bytes := sendto sendbuf (position + 2)
  if bytes = -1 then
    { sendbuf := sendbuf, len := position + 2, ret := 0 }
  else if to_size_t bytes ≠ position + 2 then
    { sendbuf := sendbuf, len := position + 2, ret := 0 }
  else
    { sendbuf := sendbuf, len := position + 2, ret := bytes }

/-! ## `ldns_send` -/

/-- The address family stored in `ss_family`. -/
inductive sa_family where
  | AF_INET
  | AF_INET6
  deriving Repr, DecidableEq

/-- A nameserver address as held in the resolver (an `ldns_rdf` carrying an IPv4
or IPv6 address). -/
structure ldns_rdf where
  family : sa_family
  addr : List Nat
  deriving Repr, DecidableEq

/-- The destination handed to the transport functions. -/
structure sockaddr_storage where
  ss_family : sa_family
  addr : List Nat
  port : Nat
  deriving Repr, DecidableEq

/-- Modelled from the spec: `ldns_rdf2native_sockaddr_storage` is not among the
sources; it turns a nameserver address into a socket address of the same
family (the port is filled in by `ldns_send`). -/
def ldns_rdf2native_sockaddr_storage (rd : ldns_rdf) : sockaddr_storage :=
  { ss_family := rd.family, addr := rd.addr, port := 0 }

/-- The values of `ldns_resolver_ip6`. -/
inductive ip6_pref where
  | LDNS_RESOLV_INETANY
  | LDNS_RESOLV_INET
  | LDNS_RESOLV_INET6
  deriving Repr, DecidableEq

/-- A `struct timeval`. -/
structure timeval where
  tv_sec : Int
  tv_usec : Int
  deriving Repr, DecidableEq

/-- The fields of `ldns_resolver` read by `ldns_send`. -/
structure ldns_resolver where
  _nameservers : List ldns_rdf
  _port : Nat
  _ip6 : ip6_pref
  _usevc : Bool
  _fail : Bool
  _timeout : timeval
  _tsig_keyname : List Nat
  _tsig_keydata : List Nat
  deriving Repr, DecidableEq

/-- The number of configured nameservers, `ldns_resolver_nameserver_count(r)`. -/
def ldns_resolver_nameserver_count (r : ldns_resolver) : Nat :=
  r._nameservers.length

/-- A resource record, as the list of its rdata fields. -/
abbrev ldns_rr := List (List Nat)

/-- Modelled from the spec: `ldns_rr_rdf` is not among the sources; it returns
rdata field `n` of the record, `NULL` when there is none.  Field 3 of a TSIG
record is its MAC. -/
def ldns_rr_rdf (rr : ldns_rr) (n : Nat) : Option (List Nat) :=
  rr[n]?

/-- A packet: its DNS content (opaque here), the TSIG record it carries, and the
three fields `ldns_send` sets on a reply. -/
structure ldns_pkt where
  content : List Nat
  _tsig_rr : Option ldns_rr
  _querytime : Int
  _answerfrom : Option ldns_rdf
  _when : Option Int
  deriving Repr, DecidableEq

/-- The value of a C expression of type `long` (`time_t` and `suseconds_t` are
`long`; 64 bits on LP64 platforms) whose mathematical value is `x`: the 64-bit
two's complement value congruent to `x`.  It is `x` itself when `x` lies in
`[-2^63, 2^63)`; outside that range the C computation has overflowed. -/
def to_long (x : Int) : Int :=
  (x + 9223372036854775808) % 18446744073709551616 - 9223372036854775808

/-- The argument of `ldns_pkt_set_querytime` in `ldns_send`:
`((tv_e.tv_sec - tv_s.tv_sec) * 1000) + (tv_e.tv_usec - tv_s.tv_usec) / 1000`,
every operation carried out in `long` and the division truncating toward zero
as in C. -/
def querytime (tv_s tv_e : timeval) : Int :=
  to_long (to_long (to_long (tv_e.tv_sec - tv_s.tv_sec) * 1000)
    + Int.tdiv (to_long (tv_e.tv_usec - tv_s.tv_usec)) 1000)

/-- The three setters applied to a decoded reply: `ldns_pkt_set_querytime`,
`ldns_pkt_set_answerfrom(reply, ns_array[i])` and `ldns_pkt_set_when` (the
capture time is kept as the seconds value given to `ctime`). -/
def stamp (reply : ldns_pkt) (tv_s tv_e : timeval) (ns : ldns_rdf) : ldns_pkt :=
  { reply with
    _querytime := querytime tv_s tv_e
    _answerfrom := some ns
    _when := some tv_s.tv_sec }

/-- Everything `ldns_send` calls that lives outside `net.c` or in the operating
system.  The transports `ldns_send_tcp` and `ldns_send_udp` answer `none` for
`NULL`; their first argument is the number of transport calls made before in
this run, so the outside world may answer each call differently.
`gettimeofday` is indexed by the number of earlier calls.  `ldns_wire2pkt`
gives whether the status is `LDNS_STATUS_OK` and the packet pointer it stored.
`ldns_pkt2buffer_wire` answers `none` when its status is not OK. -/
structure Env where
  ldns_pkt2buffer_wire : ldns_pkt → Option (List Nat)
  ldns_send_tcp : Nat → List Nat → sockaddr_storage → timeval → Option (List Nat)
  ldns_send_udp : Nat → List Nat → sockaddr_storage → timeval → Option (List Nat)
  gettimeofday : Nat → timeval
  ldns_wire2pkt : List Nat → Nat → Bool × Option ldns_pkt
  ldns_pkt_tsig_verify :
    Option ldns_pkt → List Nat → Nat → List Nat → List Nat → List Nat → Bool

/-- One transport call made by `ldns_send`: the index `i` of the nameserver and
what the transport returned. -/
structure attempt where
  i : Nat
  reply_bytes : Option (List Nat)
  deriving Repr, DecidableEq

/-- The local variables of `ldns_send` that live across loop iterations; `sends`
and `ticks` count the transport and `gettimeofday` calls made so far. -/
structure send_state where
  i : Nat
  sends : Nat
  ticks : Nat
  reply : Option ldns_pkt
  reply_bytes : Option (List Nat)
  reply_size : Nat
  deriving Repr, DecidableEq

/-- What one pass through the body of the nameserver loop does: the loop
condition is false (`stop`); the family does not fit and the body ends with
`continue` (`skip`); or a transport call is made, after which the loop goes on
(`next`), the function returns `NULL` (`ret_null`), or the loop is left by
`break` (`brk`, with the variables the code after the loop reads). -/
inductive step_result where
  | stop
  | skip (s : send_state)
  | next (e : attempt) (s : send_state)
  | ret_null (e : attempt)
  | brk (e : attempt) (reply : Option ldns_pkt) (reply_bytes : Option (List Nat))
      (reply_size : Nat)
  deriving Repr, DecidableEq

/-- The test `(ns->ss_family == AF_INET && ldns_resolver_ip6(r) == LDNS_RESOLV_INET6) ||
(ns->ss_family == AF_INET6 && ldns_resolver_ip6(r) == LDNS_RESOLV_INET)` that makes
the loop skip a nameserver. -/
def family_mismatch (r : ldns_resolver) (ns : sockaddr_storage) : Bool :=
  (ns.ss_family = sa_family.AF_INET ∧ r._ip6 = ip6_pref.LDNS_RESOLV_INET6)
    ∨ (ns.ss_family = sa_family.AF_INET6 ∧ r._ip6 = ip6_pref.LDNS_RESOLV_INET)

/-- The family filter in the spec's words (section 4.1): a candidate is skipped
when its address family conflicts with a `V4Only` (`LDNS_RESOLV_INET`) or
`V6Only` (`LDNS_RESOLV_INET6`) preference; with no preference nothing
conflicts.  Compared with `family_mismatch` in `family_mismatch_eq_conflicts`. -/
def family_conflicts (pref : ip6_pref) (family : sa_family) : Bool :=
  match pref, family with
  | ip6_pref.LDNS_RESOLV_INET, sa_family.AF_INET6 => true
  | ip6_pref.LDNS_RESOLV_INET6, sa_family.AF_INET => true
  | _, _ => false

/-- The transport call: `ldns_send_tcp` when `1 == ldns_resolver_usevc(r)`,
`ldns_send_udp` otherwise, to the socket address with the resolver's port. -/
def send_query (r : ldns_resolver) (env : Env) (qb : List Nat) (sends : Nat)
    (ns : sockaddr_storage) : Option (List Nat) :=
  if r._usevc = true then
    env.ldns_send_tcp sends qb { ns with port := r._port } r._timeout
  else
    env.ldns_send_udp sends qb { ns with port := r._port } r._timeout

/-- The rest of the loop body once the transport has returned `reply_bytes`:
the `fail` directive, `ldns_wire2pkt`, the second `gettimeofday`, and the
stamping of a decoded reply. -/
def after_transport (r : ldns_resolver) (env : Env) (s : send_state) (ns_rdf : ldns_rdf)
    (reply_bytes : Option (List Nat)) : step_result :=
  match reply_bytes with
  | none =>
    if r._fail = true then
      step_result.ret_null { i := s.i, reply_bytes := none }
    else
      step_result.next { i := s.i, reply_bytes := none }
        { s with i := (s.i + 1) % 256, sends := s.sends + 1, ticks := s.ticks + 1,
                 reply_bytes := none }
  | some bytes =>
    if (env.ldns_wire2pkt bytes bytes.length).1 = false then
      step_result.ret_null { i := s.i, reply_bytes := some bytes }
    else
      match (env.ldns_wire2pkt bytes bytes.length).2 with
      | some reply =>
        step_result.brk { i := s.i, reply_bytes := some bytes }
          (some (stamp reply (env.gettimeofday s.ticks) (env.gettimeofday (s.ticks + 1)) ns_rdf))
          (some bytes) bytes.length
      | none =>
        if r._fail = true then
          step_result.brk { i := s.i, reply_bytes := some bytes } none (some bytes) bytes.length
        else
          step_result.next { i := s.i, reply_bytes := some bytes }
            { i := (s.i + 1) % 256, sends := s.sends + 1, ticks := s.ticks + 2,
              reply := none, reply_bytes := some bytes, reply_size := bytes.length }

/-- The loop condition `i < ldns_resolver_nameserver_count(r)` and one pass
through the body of the `for` loop of `ldns_send`, including the `i++` (on a
`uint8_t`) that follows a `continue` or the end of the body.  The first
`gettimeofday` is call number `s.ticks`. -/
def send_step (r : ldns_resolver) (env : Env) (qb : List Nat) (s : send_state) : step_result :=
  if h : s.i < ldns_resolver_nameserver_count r then
    let ns_rdf := r._nameservers.get ⟨s.i, h⟩
    let ns := ldns_rdf2native_sockaddr_storage ns_rdf
    if family_mismatch r ns = true then
      step_result.skip { s with i := (s.i + 1) % 256 }
    else
      after_transport r env s ns_rdf (send_query r env qb s.sends ns)
  else step_result.stop

/-- How the nameserver loop ends. -/
inductive loop_exit where
  | out_of_fuel
  | returned_null
  | finished (reply : Option ldns_pkt) (reply_bytes : Option (List Nat)) (reply_size : Nat)
  deriving Repr, DecidableEq

/-- The loop `for (i = 0; i < ldns_resolver_nameserver_count(r); i++)` of
`ldns_send`.  Returns the transport calls made, in order, and how the loop
ended: by `return NULL`, or by `break` or a false loop condition (`finished`,
with the variables the code after the loop reads). -/
def send_loop (r : ldns_resolver) (env : Env) (qb : List Nat) :
    Nat → send_state → List attempt × loop_exit
  | 0, _ => ([], loop_exit.out_of_fuel)
  | fuel + 1, s =>
    match send_step r env qb s with
    | step_result.stop => ([], loop_exit.finished s.reply s.reply_bytes s.reply_size)
    | step_result.skip s1 => send_loop r env qb fuel s1
    | step_result.next e s1 =>
      let rest := send_loop r env qb fuel s1
      (e :: rest.1, rest.2)
    | step_result.ret_null e => ([e], loop_exit.returned_null)
    | step_result.brk e reply reply_bytes reply_size =>
      ([e], loop_exit.finished reply reply_bytes reply_size)

/-- The arguments of one call of `ldns_pkt_tsig_verify`. -/
structure verify_call where
  pkt : Option ldns_pkt
  wire : List Nat
  wirelen : Nat
  key_name : List Nat
  key_data : List Nat
  mac : List Nat
  deriving Repr, DecidableEq

/-- A line written by `dprintf`. -/
inductive diagnostic where
  | tsig_verification_failed
  deriving Repr, DecidableEq

/-- What a call of `ldns_send` did: its return value (`none` when it has not
returned within the fuel, `some none` for `NULL`), the transport calls, the
calls of the TSIG verifier and the warnings printed. -/
structure send_run where
  ret : Option (Option ldns_pkt)
  attempts : List attempt
  verify_calls : List verify_call
  warnings : List diagnostic
  deriving Repr, DecidableEq

/-- The variables of `ldns_send` when the loop is entered: `i = 0`,
`reply = NULL`, `reply_bytes = NULL`, `reply_size = 0`. -/
def send_init : send_state :=
  { i := 0, sends := 0, ticks := 0, reply := none, reply_bytes := none, reply_size := 0 }

/-- The assignment `tsig_mac = ldns_rr_rdf(ldns_pkt_tsig(query_pkt), 3)` made
when the query carries a TSIG record; `NULL` otherwise. -/
def tsig_mac_of (query_pkt : ldns_pkt) : Option (List Nat) :=
  match query_pkt._tsig_rr with
  | some rr => ldns_rr_rdf rr 3
  | none => none

/-- The code after the loop: `if (tsig_mac && reply_bytes)` call the verifier
and print the warning when it answers false; then `return reply`. -/
def after_loop (r : ldns_resolver) (env : Env) (tsig_mac : Option (List Nat))
    (res : List attempt × loop_exit) : send_run :=
  match res.2 with
  | loop_exit.out_of_fuel =>
    { ret := none, attempts := res.1, verify_calls := [], warnings := [] }
  | loop_exit.returned_null =>
    { ret := some none, attempts := res.1, verify_calls := [], warnings := [] }
  | loop_exit.finished reply reply_bytes reply_size =>
    match tsig_mac, reply_bytes with
    | some mac, some bytes =>
      if env.ldns_pkt_tsig_verify reply bytes reply_size r._tsig_keyname r._tsig_keydata mac
          = true then
        { ret := some reply, attempts := res.1,
          verify_calls := [{ pkt := reply, wire := bytes, wirelen := reply_size,
                             key_name := r._tsig_keyname, key_data := r._tsig_keydata,
                             mac := mac }],
          warnings := [] }
      else
        { ret := some reply, attempts := res.1,
          verify_calls := [{ pkt := reply, wire := bytes, wirelen := reply_size,
                             key_name := r._tsig_keyname, key_data := r._tsig_keydata,
                             mac := mac }],
          warnings := [diagnostic.tsig_verification_failed] }
    | _, _ => { ret := some reply, attempts := res.1, verify_calls := [], warnings := [] }

/-- The function `ldns_send(r, query_pkt)`; `query_pkt = none` is the `NULL`
pointer. -/
def ldns_send (fuel : Nat) (r : ldns_resolver) (env : Env) (query_pkt : Option ldns_pkt) :
    send_run :=
  match query_pkt with
  | none => { ret := some none, attempts := [], verify_calls := [], warnings := [] }
  | some q =>
    match env.ldns_pkt2buffer_wire q with
    | none => { ret := some none, attempts := [], verify_calls := [], warnings := [] }
    | some qb => after_loop r env (tsig_mac_of q) (send_loop r env qb fuel send_init)

/-! ## Sample values used to instantiate the theorems -/

/-- An IPv4 nameserver. -/
def ns_a : ldns_rdf := { family := sa_family.AF_INET, addr := [192, 0, 2, 1] }

/-- A second IPv4 nameserver. -/
def ns_b : ldns_rdf := { family := sa_family.AF_INET, addr := [192, 0, 2, 2] }

/-- An IPv6 nameserver. -/
def ns_c : ldns_rdf :=
  { family := sa_family.AF_INET6, addr := [32, 1, 13, 184, 0, 0, 0, 0, 0, 0, 0, 0, 0, 0, 0, 1] }

/-- A decoded reply as the decoder hands it over. -/
def sample_reply : ldns_pkt :=
  { content := [0xBE, 0xEF], _tsig_rr := none, _querytime := 0, _answerfrom := none,
    _when := none }

/-- A query without a TSIG record. -/
def sample_query : ldns_pkt :=
  { content := [0x12, 0x34], _tsig_rr := none, _querytime := 0, _answerfrom := none,
    _when := none }

/-- A query carrying a TSIG record whose MAC (rdata field 3) is `AA BB`. -/
def sample_tsig_query : ldns_pkt :=
  { content := [0x12, 0x34], _tsig_rr := some [[1], [2], [3], [0xAA, 0xBB], [4], [5], [6]],
    _querytime := 0, _answerfrom := none, _when := none }

/-- An outside world built from what each destination answers, what the decoder
makes of the bytes, and the verdict of the TSIG verifier.  The wire encoder
succeeds and the clock advances one second per reading. -/
def sample_env (transport : sockaddr_storage → Option (List Nat))
    (decode : List Nat → Bool × Option ldns_pkt) (verdict : Bool) : Env :=
  { ldns_pkt2buffer_wire := fun q => some q.content
    ldns_send_tcp := fun _ _ ns _ => transport ns
    ldns_send_udp := fun _ _ ns _ => transport ns
    gettimeofday := fun n => { tv_sec := 100 + (n : Int), tv_usec := 0 }
    ldns_wire2pkt := fun bytes _ => decode bytes
    ldns_pkt_tsig_verify := fun _ _ _ _ _ _ => verdict }

/-- A resolver over UDP, port 53, with the given nameservers and `fail` flag. -/
def sample_resolver (nameservers : List ldns_rdf) (fail : Bool) : ldns_resolver :=
  { _nameservers := nameservers, _port := 53, _ip6 := ip6_pref.LDNS_RESOLV_INETANY,
    _usevc := false, _fail := fail, _timeout := { tv_sec := 2, tv_usec := 0 },
    _tsig_keyname := [0x6B], _tsig_keydata := [0x73] }

/-- Only the nameserver `ns_b` answers, with the bytes `01 02 03`. -/
def only_b_answers (ns : sockaddr_storage) : Option (List Nat) :=
  if ns.addr = ns_b.addr then some [1, 2, 3] else none

/-- A decoder that accepts every message as `sample_reply`. -/
def decode_ok (_ : List Nat) : Bool × Option ldns_pkt := (true, some sample_reply)

/-- A decoder that rejects every message. -/
def decode_bad (_ : List Nat) : Bool × Option ldns_pkt := (false, none)

/-- A resolver with 257 IPv4 nameservers: 256 times `ns_a`, then `ns_b`; no
family preference, `fail` clear. -/
def resolver_257 : ldns_resolver := sample_resolver (List.replicate 256 ns_a ++ [ns_b]) false

/-- An outside world in which only `ns_b` answers, with bytes that decode. -/
def env_only_b : Env := sample_env only_b_answers decode_ok true

/-- Every nameserver but `ns_a` answers, with the bytes `01 02 03`. -/
def all_but_a_answer (ns : sockaddr_storage) : Option (List Nat) :=
  if ns.addr = ns_a.addr then none else some [1, 2, 3]

/-- A resolver restricted to IPv4 (`LDNS_RESOLV_INET`) whose list starts with an
IPv6 nameserver: `[ns_c, ns_a, ns_b]`, `fail` clear. -/
def resolver_v4only : ldns_resolver :=
  { sample_resolver [ns_c, ns_a, ns_b] false with _ip6 := ip6_pref.LDNS_RESOLV_INET }

/-- A resolver with 256 IPv4 nameservers, no family preference, `fail` clear. -/
def resolver_256 : ldns_resolver := sample_resolver (List.replicate 256 ns_a) false

/-- An outside world in which no nameserver ever answers. -/
def env_silent : Env := sample_env (fun _ => none) decode_ok true

/-! ## Facts about buffers and `recv` -/

theorem writeAt_after (acc dat rest : List Nat) :
    writeAt (acc ++ rest) acc.length dat = (acc ++ dat) ++ rest.drop dat.length := by
  unfold writeAt
  rw [List.take_left' rfl, List.drop_append_eq_append_drop]
  have h1 : (acc.length + dat.length) - acc.length = dat.length := by omega
  have h2 : List.drop (acc.length + dat.length) acc = [] :=
    List.drop_eq_nil_of_le (by omega)
  rw [h1, h2, List.nil_append]

theorem recv_data_whole (c : List Nat) (rest : Socket) (len : Nat) (h : c.length ≤ len) :
    recv (RecvEvent.data c :: rest) len = ((c.length : Int), c, rest) := by
  simp [recv, List.take_of_length_le h, List.drop_eq_nil_of_le h]

/-- The body loop reassembles deliveries that add up to the missing part of the
buffer, whatever follows them on the socket. -/
theorem read_body_chunks (chunks : List (List Nat)) :
    ∀ (fuel : Nat) (tail : Socket) (acc rest : List Nat),
      rest.length = chunks.flatten.length → chunks.length + 1 ≤ fuel →
      read_body fuel (chunks.map RecvEvent.data ++ tail) (acc ++ rest)
          (acc.length + rest.length) (acc.length : Int)
        = some (wire_result.buffer (acc ++ chunks.flatten) (acc.length + rest.length)) := by
  induction chunks with
  | nil =>
    intro fuel tail acc rest hlen hfuel
    obtain ⟨f, rfl⟩ : ∃ f, fuel = f + 1 := ⟨fuel - 1, by omega⟩
    have hrest : rest = [] := List.eq_nil_of_length_eq_zero (by simpa using hlen)
    subst hrest
    simp [read_body]
  | cons c cs ih =>
    intro fuel tail acc rest hlen hfuel
    obtain ⟨f, rfl⟩ : ∃ f, fuel = f + 1 := ⟨fuel - 1, by omega⟩
    have hc : c.length ≤ rest.length := by
      rw [hlen]; simp
    simp only [List.length_cons] at hfuel
    by_cases hz : rest.length = 0
    · have hrest : rest = [] := List.eq_nil_of_length_eq_zero hz
      subst hrest
      have hc0 : c = [] := List.eq_nil_of_length_eq_zero (by simpa using hc)
      have hcs : cs.flatten = [] := by
        apply List.eq_nil_of_length_eq_zero
        rw [hc0, List.flatten_cons, List.nil_append, List.length_nil] at hlen
        exact hlen.symm
      subst hc0
      simp [read_body, hcs]
    · have hlt : (acc.length : Int) < ((acc.length + rest.length : Nat) : Int) := by
        push_cast; omega
      have htoNat : (((acc.length + rest.length : Nat) : Int) - (acc.length : Int)).toNat
          = rest.length := by
        push_cast; omega
      have hne : ¬ ((acc.length : Int) + (c.length : Int) = -1) := by omega
      rw [read_body]
      simp only [hlt, if_true, htoNat, List.map_cons, List.cons_append,
        recv_data_whole c _ _ hc, Int.toNat_ofNat, hne, if_false]
      rw [writeAt_after acc c rest]
      have hlen2 : (rest.drop c.length).length = cs.flatten.length := by
        simp [List.length_drop, hlen]
      have key := ih f tail (acc ++ c) (rest.drop c.length) hlen2 (by omega)
      have e1 : (acc ++ c).length + (rest.drop c.length).length = acc.length + rest.length := by
        simp [List.length_drop]; omega
      have e2 : (((acc ++ c).length : Nat) : Int) = (acc.length : Int) + (c.length : Int) := by
        simp
      rw [e1, e2] at key
      rw [key]
      simp

/-! ## Claims about the TCP framing -/

/-- C1: when the two length bytes `b0 b1` arrive in one receive and the body
then arrives as any sequence of deliveries adding up to `N = b0 * 256 + b1`
bytes, `ldns_tcp_read_wire` returns (given fuel for one pass per delivery, plus
the two passes that end the loops) a buffer of reported size `N` holding exactly
the body bytes in order, whatever follows on the socket.  The sizes of the
deliveries do not matter, so they need not even be assumed positive. -/
theorem C1_tcp_read_wire_reassembles_body (junk : Nat → Nat) (b0 b1 : Nat)
    (chunks : List (List Nat)) (tail : Socket) (fuel : Nat)
    (hb0 : b0 < 256) (hb1 : b1 < 256)
    (hlen : chunks.flatten.length = b0 * 256 + b1)
    (hfuel : chunks.length + 2 ≤ fuel) :
    ldns_tcp_read_wire junk fuel
        (RecvEvent.data [b0, b1] :: (chunks.map RecvEvent.data ++ tail))
      = some (wire_result.buffer chunks.flatten (b0 * 256 + b1)) := by
  obtain ⟨f, rfl⟩ : ∃ f, fuel = f + 2 := ⟨fuel - 2, by omega⟩
  have hpre : read_length (f + 2) (RecvEvent.data [b0, b1] :: (chunks.map RecvEvent.data ++ tail))
      (XMALLOC junk 2) 0 = some (some ([b0, b1], chunks.map RecvEvent.data ++ tail)) := by
    simp [read_length, recv, writeAt, XMALLOC]
  have hsize : read_uint16 [b0, b1] = b0 * 256 + b1 := by
    simp [read_uint16, Nat.mod_eq_of_lt hb0, Nat.mod_eq_of_lt hb1]
  unfold ldns_tcp_read_wire
  rw [hpre]
  simp only [hsize]
  have hx : (XMALLOC junk (b0 * 256 + b1)).length = chunks.flatten.length := by
    simp [XMALLOC, hlen]
  have key := read_body_chunks chunks (f + 2) tail [] (XMALLOC junk (b0 * 256 + b1)) hx (by omega)
  simp only [List.nil_append, List.length_nil, Nat.zero_add, hx, hlen] at key
  simpa using key

/-- C1 witness: prefix `00 11` (17 bytes), body delivered as 10, 5 and 2 bytes. -/
theorem C1_tcp_read_wire_reassembles_body_witness :
    ldns_tcp_read_wire (fun _ => 0) 5
        (RecvEvent.data [0, 17] ::
          ([[1, 2, 3, 4, 5, 6, 7, 8, 9, 10], [11, 12, 13, 14, 15], [16, 17]].map RecvEvent.data
            ++ []))
      = some (wire_result.buffer
          [[1, 2, 3, 4, 5, 6, 7, 8, 9, 10], [11, 12, 13, 14, 15], [16, 17]].flatten
          (0 * 256 + 17)) :=
  C1_tcp_read_wire_reassembles_body (fun _ => 0) 0 17
    [[1, 2, 3, 4, 5, 6, 7, 8, 9, 10], [11, 12, 13, 14, 15], [16, 17]] [] 5
    (by decide) (by decide) (by decide) (by decide)

theorem length_XMALLOC (junk : Nat → Nat) (n : Nat) : (XMALLOC junk n).length = n := by
  simp [XMALLOC]

/-- The buffer built by `ldns_tcp_send_query`: the two length bytes, then the
query. -/
theorem sendbuf_eq (junk : Nat → Nat) (qbin : List Nat) :
    writeAt (writeAt (XMALLOC junk (qbin.length + 2)) 0 (write_uint16 qbin.length)) 2 qbin
      = write_uint16 qbin.length ++ qbin := by
  have h1 := writeAt_after [] (write_uint16 qbin.length) (XMALLOC junk (qbin.length + 2))
  simp only [List.nil_append, List.length_nil] at h1
  rw [h1]
  have h2 := writeAt_after (write_uint16 qbin.length) qbin
    ((XMALLOC junk (qbin.length + 2)).drop (write_uint16 qbin.length).length)
  have hl : (write_uint16 qbin.length).length = 2 := rfl
  rw [hl] at h2
  rw [hl, h2]
  have h3 : List.drop qbin.length (List.drop 2 (XMALLOC junk (qbin.length + 2))) = [] := by
    apply List.drop_eq_nil_of_le
    simp [length_XMALLOC]
  rw [h3, List.append_nil]

theorem to_size_t_eq_iff (x : Int) (n : Nat) (hlo : -(2 : Int) ^ 63 ≤ x) (hhi : x < (2 : Int) ^ 63)
    (hn : n < 2 ^ 63) : to_size_t x = n ↔ x = (n : Int) := by
  unfold to_size_t
  norm_num at hlo hhi hn ⊢
  omega

/-- C2: for a serialized query of `n ≤ 65535` bytes, the buffer handed to the
single `sendto` has length `n + 2`, starts with `n / 256` and `n % 256`, and
continues with the query bytes unchanged; the call returns `n + 2` when `sendto`
reports `n + 2` bytes written and returns `0` for every other outcome (an error
or a short write). -/
theorem C2_tcp_send_query_frames_and_checks (junk : Nat → Nat) (qbin : List Nat)
    (sendto : List Nat → Nat → Int)
    (hn : qbin.length ≤ 65535)
    (hret : ∀ buf len, -(2 : Int) ^ 63 ≤ sendto buf len ∧ sendto buf len < (2 : Int) ^ 63) :
    (ldns_tcp_send_query junk qbin sendto).len = qbin.length + 2
    ∧ (ldns_tcp_send_query junk qbin sendto).sendbuf.length = qbin.length + 2
    ∧ (ldns_tcp_send_query junk qbin sendto).sendbuf
        = [qbin.length / 256, qbin.length % 256] ++ qbin
    ∧ (sendto ([qbin.length / 256, qbin.length % 256] ++ qbin) (qbin.length + 2)
          = ((qbin.length + 2 : Nat) : Int)
        → (ldns_tcp_send_query junk qbin sendto).ret = ((qbin.length + 2 : Nat) : Int))
    ∧ (sendto ([qbin.length / 256, qbin.length % 256] ++ qbin) (qbin.length + 2)
          ≠ ((qbin.length + 2 : Nat) : Int)
        → (ldns_tcp_send_query junk qbin sendto).ret = 0) := by
  have hw : write_uint16 qbin.length = [qbin.length / 256, qbin.length % 256] := by
    have : qbin.length % 65536 = qbin.length := Nat.mod_eq_of_lt (by omega)
    simp [write_uint16, this]
  have hbuf : writeAt (writeAt (XMALLOC junk (qbin.length + 2)) 0 (write_uint16 qbin.length)) 2 qbin
      = [qbin.length / 256, qbin.length % 256] ++ qbin := by
    rw [sendbuf_eq, hw]
  have hsz := to_size_t_eq_iff
    (sendto ([qbin.length / 256, qbin.length % 256] ++ qbin) (qbin.length + 2))
    (qbin.length + 2) (hret _ _).1 (hret _ _).2 (by omega)
  unfold ldns_tcp_send_query
  simp only [hbuf]
  refine ⟨?_, ?_, ?_, ?_, ?_⟩
  · split_ifs <;> rfl
  · split_ifs <;> simp
  · split_ifs <;> rfl
  · intro h
    have h1 : ¬ (sendto ([qbin.length / 256, qbin.length % 256] ++ qbin) (qbin.length + 2) = -1) := by
      rw [h]; omega
    have h2 : to_size_t (sendto ([qbin.length / 256, qbin.length % 256] ++ qbin) (qbin.length + 2))
        = qbin.length + 2 := hsz.2 h
    rw [if_neg h1, if_neg (not_not.mpr h2)]
    exact h
  · intro h
    by_cases h1 : sendto ([qbin.length / 256, qbin.length % 256] ++ qbin) (qbin.length + 2) = -1
    · rw [if_pos h1]
    · have h2 : to_size_t (sendto ([qbin.length / 256, qbin.length % 256] ++ qbin) (qbin.length + 2))
          ≠ qbin.length + 2 := fun e => h (hsz.1 e)
      rw [if_neg h1, if_pos h2]

/-- C2 witness: a three-byte query and a `sendto` that writes everything. -/
theorem C2_tcp_send_query_frames_and_checks_witness :
    (ldns_tcp_send_query (fun _ => 0) [7, 8, 9] (fun _ _ => 5)).len = 3 + 2
    ∧ (ldns_tcp_send_query (fun _ => 0) [7, 8, 9] (fun _ _ => 5)).sendbuf.length
        = 3 + 2
    ∧ (ldns_tcp_send_query (fun _ => 0) [7, 8, 9] (fun _ _ => 5)).sendbuf
        = [3 / 256, 3 % 256] ++ [7, 8, 9]
    ∧ ((5 : Int) = ((3 + 2 : Nat) : Int)
        → (ldns_tcp_send_query (fun _ => 0) [7, 8, 9] (fun _ _ => 5)).ret
            = ((3 + 2 : Nat) : Int))
    ∧ ((5 : Int) ≠ ((3 + 2 : Nat) : Int)
        → (ldns_tcp_send_query (fun _ => 0) [7, 8, 9] (fun _ _ => 5)).ret = 0) :=
  C2_tcp_send_query_frames_and_checks (fun _ => 0) [7, 8, 9] (fun _ _ => 5)
    (by decide) (by intro buf len; constructor <;> norm_num)

/-- Once the peer has closed the stream, a body loop that still misses bytes
never ends: every `recv` returns `0`. -/
theorem read_body_closed (fuel : Nat) :
    ∀ (wire : List Nat) (wire_size : Nat) (bytes : Int),
      bytes < (wire_size : Int) → bytes ≠ -1 → read_body fuel [] wire wire_size bytes = none := by
  induction fuel with
  | zero => intro wire wire_size bytes _ _; rfl
  | succ f ih =>
    intro wire wire_size bytes hlt hne
    rw [read_body]
    simp only [hlt, if_true, recv, add_zero, hne, if_false]
    exact ih _ _ _ hlt hne

/-- What the error tests do catch: an error on the first `recv` of the length
loop, and an error on the first `recv` of the body loop (while `bytes` is still
`0`), make `ldns_tcp_read_wire` return `NULL`. -/
theorem read_wire_error_detected (junk : Nat → Nat) (fuel : Nat) (b0 b1 : Nat)
    (tail : Socket) (hN : 0 < read_uint16 [b0, b1]) :
    ldns_tcp_read_wire junk (fuel + 1) (RecvEvent.error :: tail) = some wire_result.null
    ∧ ldns_tcp_read_wire junk (fuel + 2) (RecvEvent.data [b0, b1] :: RecvEvent.error :: tail)
        = some wire_result.null := by
  constructor
  · simp [ldns_tcp_read_wire, read_length, recv]
  · have hpre : read_length (fuel + 2) (RecvEvent.data [b0, b1] :: RecvEvent.error :: tail)
        (XMALLOC junk 2) 0 = some (some ([b0, b1], RecvEvent.error :: tail)) := by
      simp [read_length, recv, writeAt, XMALLOC]
    have hlt : (0 : Int) < ((read_uint16 [b0, b1] : Nat) : Int) := by exact_mod_cast hN
    unfold ldns_tcp_read_wire
    rw [hpre]
    simp only
    rw [read_body]
    simp [hlt, recv]

/-- C9: a receive error after part of the body has been accumulated is not
detected.  Reply `00 03 | 61 62 63` followed by further bytes on the stream;
the first body byte arrives, the next `recv` fails with `-1`, then the rest
arrives.  `bytes += -1` gives `0`, not `-1`, so the loop goes on, stores the
later bytes from offset `0` and returns the buffer `62 63 64` of size 3 instead
of `NULL`.  When the peer sends nothing beyond the three body bytes and closes,
the call never returns. -/
theorem C9_error_after_partial_body_is_missed (junk : Nat → Nat) (fuel : Nat) :
    ldns_tcp_read_wire junk (fuel + 4)
        [RecvEvent.data [0, 3], RecvEvent.data [0x61], RecvEvent.error,
          RecvEvent.data [0x62, 0x63, 0x64]]
      = some (wire_result.buffer [0x62, 0x63, 0x64] 3)
    ∧ ldns_tcp_read_wire junk fuel
          [RecvEvent.data [0, 3], RecvEvent.data [0x61], RecvEvent.error,
            RecvEvent.data [0x62, 0x63]]
        = none := by
  constructor
  · simp [ldns_tcp_read_wire, read_length, read_body, recv, writeAt, XMALLOC, read_uint16,
      List.range_succ]
  · match fuel with
    | 0 => rfl
    | 1 => rfl
    | 2 =>
      simp [ldns_tcp_read_wire, read_length, read_body, recv, writeAt, XMALLOC, read_uint16,
        List.range_succ]
    | 3 =>
      simp [ldns_tcp_read_wire, read_length, read_body, recv, writeAt, XMALLOC, read_uint16,
        List.range_succ]
    | f + 4 =>
      have hb : ∀ wire, read_body f [] wire 3 2 = none :=
        fun wire => read_body_closed f wire 3 2 (by decide) (by decide)
      simp [ldns_tcp_read_wire, read_length, read_body, recv, writeAt, XMALLOC, read_uint16,
        List.range_succ, hb]

/-- C10: when the first delivery carries only the first length byte, the length
is not taken from the first two bytes of the stream.  Reply `00 02 | AB CD`,
delivered as `00` and then `02 AB CD`: the second `recv` stores `02 AB` at the
start of the two-byte buffer, so the length loop ends with `02 AB` (683) as the
declared length; the body loop then waits for 683 bytes, never returns once the
peer has closed, and returns `NULL` when the following receives time out. -/
theorem C10_split_length_bytes_are_misread (junk : Nat → Nat) (fuel : Nat) :
    read_length (fuel + 3) [RecvEvent.data [0x00], RecvEvent.data [0x02, 0xAB, 0xCD]]
        (XMALLOC junk 2) 0
      = some (some ([0x02, 0xAB], [RecvEvent.data [0xCD]]))
    ∧ read_uint16 [0x02, 0xAB] = 683
    ∧ ldns_tcp_read_wire junk fuel [RecvEvent.data [0x00], RecvEvent.data [0x02, 0xAB, 0xCD]]
        = none
    ∧ ldns_tcp_read_wire junk fuel [RecvEvent.data [0x00], RecvEvent.data [0x02, 0xAB, 0xCD]]
        ≠ some (wire_result.buffer [0xAB, 0xCD] 2)
    ∧ ldns_tcp_read_wire junk (fuel + 4)
          [RecvEvent.data [0x00], RecvEvent.data [0x02, 0xAB, 0xCD], RecvEvent.error,
            RecvEvent.error]
        = some wire_result.null := by
  have hlen : ∀ f tl, read_length (f + 3)
      (RecvEvent.data [0x00] :: RecvEvent.data [0x02, 0xAB, 0xCD] :: tl) (XMALLOC junk 2) 0
        = some (some ([0x02, 0xAB], RecvEvent.data [0xCD] :: tl)) := by
    intro f tl
    simp [read_length, recv, writeAt, XMALLOC, List.range_succ]
  have hsize : read_uint16 [0x02, 0xAB] = 683 := by decide
  have hnone : ldns_tcp_read_wire junk fuel
      [RecvEvent.data [0x00], RecvEvent.data [0x02, 0xAB, 0xCD]] = none := by
    match fuel with
    | 0 => rfl
    | 1 => simp [ldns_tcp_read_wire, read_length, recv]
    | 2 => simp [ldns_tcp_read_wire, read_length, recv]
    | f + 3 =>
      unfold ldns_tcp_read_wire
      rw [hlen f []]
      simp only [hsize]
      rw [read_body]
      have hb : ∀ wire, read_body (f + 2) [] wire 683 1 = none :=
        fun wire => read_body_closed (f + 2) wire 683 1 (by decide) (by decide)
      simp [recv, hb]
  refine ⟨hlen fuel [], hsize, hnone, ?_, ?_⟩
  · rw [hnone]; exact fun h => nomatch h
  · unfold ldns_tcp_read_wire
    rw [hlen (fuel + 1) [RecvEvent.error, RecvEvent.error]]
    simp only [hsize]
    simp [read_body, recv]

/-! ## Query time -/

theorem after_transport_ret_null (r : ldns_resolver) (env : Env) (s : send_state)
    (ns_rdf : ldns_rdf) (rb : Option (List Nat)) (e : attempt)
    (h : after_transport r env s ns_rdf rb = step_result.ret_null e) :
    e = { i := s.i, reply_bytes := rb }
    ∧ ((rb = none ∧ r._fail = true)
      ∨ ∃ bytes, rb = some bytes ∧ (env.ldns_wire2pkt bytes bytes.length).1 = false) := by
  cases rb with
  | none =>
    by_cases hf : r._fail = true
    · simp [after_transport, hf] at h
      exact ⟨h.symm, Or.inl ⟨rfl, hf⟩⟩
    · simp [after_transport, hf] at h
  | some bytes =>
    by_cases hd : (env.ldns_wire2pkt bytes bytes.length).1 = false
    · simp [after_transport, hd] at h
      exact ⟨h.symm, Or.inr ⟨bytes, rfl, hd⟩⟩
    · cases h2 : (env.ldns_wire2pkt bytes bytes.length).2 with
      | none =>
        by_cases hf : r._fail = true
        · simp [after_transport, hd, h2, hf] at h
        · simp [after_transport, hd, h2, hf] at h
      | some p => simp [after_transport, hd, h2] at h

theorem after_transport_next (r : ldns_resolver) (env : Env) (s : send_state)
    (ns_rdf : ldns_rdf) (rb : Option (List Nat)) (e : attempt) (s1 : send_state)
    (h : after_transport r env s ns_rdf rb = step_result.next e s1) :
    e = { i := s.i, reply_bytes := rb } ∧ r._fail = false
    ∧ ((rb = none ∧ s1.ticks = s.ticks + 1)
      ∨ ∃ bytes, rb = some bytes ∧ (env.ldns_wire2pkt bytes bytes.length).1 = true
          ∧ (env.ldns_wire2pkt bytes bytes.length).2 = none) := by
  cases rb with
  | none =>
    by_cases hf : r._fail = true
    · simp [after_transport, hf] at h
    · simp [after_transport, hf] at h
      obtain ⟨h1, h2⟩ := h
      subst h2
      exact ⟨h1.symm, by simpa using hf, Or.inl ⟨rfl, rfl⟩⟩
  | some bytes =>
    by_cases hd : (env.ldns_wire2pkt bytes bytes.length).1 = false
    · simp [after_transport, hd] at h
    · cases h2 : (env.ldns_wire2pkt bytes bytes.length).2 with
      | none =>
        by_cases hf : r._fail = true
        · simp [after_transport, hd, h2, hf] at h
        · simp [after_transport, hd, h2, hf] at h
          exact ⟨h.1.symm, by simpa using hf, Or.inr ⟨bytes, rfl, by simpa using hd, h2⟩⟩
      | some p => simp [after_transport, hd, h2] at h

theorem after_transport_brk (r : ldns_resolver) (env : Env) (s : send_state)
    (ns_rdf : ldns_rdf) (rb : Option (List Nat)) (e : attempt) (reply : Option ldns_pkt)
    (rb1 : Option (List Nat)) (rs1 : Nat)
    (h : after_transport r env s ns_rdf rb = step_result.brk e reply rb1 rs1) :
    e = { i := s.i, reply_bytes := rb } ∧ rb1 = rb
    ∧ ∃ bytes, rb = some bytes ∧ rs1 = bytes.length
        ∧ (env.ldns_wire2pkt bytes bytes.length).1 = true
        ∧ reply = ((env.ldns_wire2pkt bytes bytes.length).2.map fun p =>
            stamp p (env.gettimeofday s.ticks) (env.gettimeofday (s.ticks + 1)) ns_rdf) := by
  cases rb with
  | none =>
    by_cases hf : r._fail = true
    · simp [after_transport, hf] at h
    · simp [after_transport, hf] at h
  | some bytes =>
    by_cases hd : (env.ldns_wire2pkt bytes bytes.length).1 = false
    · simp [after_transport, hd] at h
    · cases h2 : (env.ldns_wire2pkt bytes bytes.length).2 with
      | none =>
        by_cases hf : r._fail = true
        · simp [after_transport, hd, h2, hf] at h
          obtain ⟨h1, h3, h4, h5⟩ := h
          exact ⟨h1.symm, h4.symm, bytes, rfl, h5.symm, by simpa using hd, by simp [h3.symm, h2]⟩
        · simp [after_transport, hd, h2, hf] at h
      | some p =>
        simp [after_transport, hd, h2] at h
        obtain ⟨h1, h3, h4, h5⟩ := h
        exact ⟨h1.symm, h4.symm, bytes, rfl, h5.symm, by simpa using hd, by simp [h3.symm, h2]⟩

/-- The shape of one pass: the loop condition is false, the nameserver is
skipped, or the pass is `after_transport` of the transport call to nameserver
`s.i`. -/
theorem send_step_cases (r : ldns_resolver) (env : Env) (qb : List Nat) (s : send_state) :
    send_step r env qb s = step_result.stop
    ∨ send_step r env qb s = step_result.skip { s with i := (s.i + 1) % 256 }
    ∨ ∃ h : s.i < r._nameservers.length,
        family_mismatch r (ldns_rdf2native_sockaddr_storage (r._nameservers.get ⟨s.i, h⟩)) = false
        ∧ send_step r env qb s
          = after_transport r env s (r._nameservers.get ⟨s.i, h⟩)
              (send_query r env qb s.sends
                (ldns_rdf2native_sockaddr_storage (r._nameservers.get ⟨s.i, h⟩))) := by
  unfold send_step
  by_cases hi : s.i < ldns_resolver_nameserver_count r
  · rw [dif_pos hi]
    by_cases hm : family_mismatch r
        (ldns_rdf2native_sockaddr_storage (r._nameservers.get ⟨s.i, hi⟩)) = true
    · right; left
      simp only [hm, if_true]
    · right; right
      refine ⟨hi, by simpa using hm, ?_⟩
      simp only [hm, if_false]
      rfl
  · left
    rw [dif_neg hi]

theorem send_step_skip (r : ldns_resolver) (env : Env) (qb : List Nat) (s s1 : send_state)
    (h : send_step r env qb s = step_result.skip s1) :
    s1 = { s with i := (s.i + 1) % 256 } := by
  rcases send_step_cases r env qb s with h0 | h0 | ⟨hi, _, h0⟩
  · rw [h0] at h; cases h
  · rw [h0] at h; cases h; rfl
  · rw [h0] at h
    generalize send_query r env qb s.sends _ = rb at h
    cases rb with
    | none => unfold after_transport at h; split_ifs at h
    | some bytes =>
      unfold after_transport at h
      simp only at h
      split_ifs at h
      all_goals (split at h <;> try split_ifs at h)
      all_goals cases h

theorem send_step_ret_null (r : ldns_resolver) (env : Env) (qb : List Nat) (s : send_state)
    (e : attempt) (h : send_step r env qb s = step_result.ret_null e) :
    (e.reply_bytes = none ∧ r._fail = true)
    ∨ ∃ bytes, e.reply_bytes = some bytes ∧ (env.ldns_wire2pkt bytes bytes.length).1 = false := by
  rcases send_step_cases r env qb s with h0 | h0 | ⟨hi, _, h0⟩
  · rw [h0] at h; cases h
  · rw [h0] at h; cases h
  · rw [h0] at h
    obtain ⟨he, h1⟩ := after_transport_ret_null r env s _ _ e h
    subst he
    rcases h1 with ⟨h2, h3⟩ | ⟨bytes, h2, h3⟩
    · exact Or.inl ⟨h2, h3⟩
    · exact Or.inr ⟨bytes, h2, h3⟩

theorem send_step_next (r : ldns_resolver) (env : Env) (qb : List Nat) (s : send_state)
    (e : attempt) (s1 : send_state) (h : send_step r env qb s = step_result.next e s1) :
    r._fail = false
    ∧ ((e.reply_bytes = none ∧ s1.ticks = s.ticks + 1)
      ∨ ∃ bytes, e.reply_bytes = some bytes ∧ (env.ldns_wire2pkt bytes bytes.length).1 = true
          ∧ (env.ldns_wire2pkt bytes bytes.length).2 = none) := by
  rcases send_step_cases r env qb s with h0 | h0 | ⟨hi, _, h0⟩
  · rw [h0] at h; cases h
  · rw [h0] at h; cases h
  · rw [h0] at h
    obtain ⟨he, hf, h1⟩ := after_transport_next r env s _ _ e s1 h
    subst he
    exact ⟨hf, h1⟩

theorem send_step_brk (r : ldns_resolver) (env : Env) (qb : List Nat) (s : send_state)
    (e : attempt) (reply : Option ldns_pkt) (rb1 : Option (List Nat)) (rs1 : Nat)
    (h : send_step r env qb s = step_result.brk e reply rb1 rs1) :
    ∃ (hi : e.i < r._nameservers.length) (bytes : List Nat),
      e.reply_bytes = some bytes ∧ rb1 = some bytes ∧ rs1 = bytes.length
      ∧ (env.ldns_wire2pkt bytes bytes.length).1 = true
      ∧ reply = ((env.ldns_wire2pkt bytes bytes.length).2.map fun p =>
          stamp p (env.gettimeofday s.ticks) (env.gettimeofday (s.ticks + 1))
            (r._nameservers.get ⟨e.i, hi⟩)) := by
  rcases send_step_cases r env qb s with h0 | h0 | ⟨hi, _, h0⟩
  · rw [h0] at h; cases h
  · rw [h0] at h; cases h
  · rw [h0] at h
    obtain ⟨he, hrb, bytes, h1, h2, h3, h4⟩ := after_transport_brk r env s _ _ e reply rb1 rs1 h
    subst he
    exact ⟨hi, bytes, h1, by rw [hrb, h1], h2, h3, h4⟩

/-! ## The nameserver loop -/

theorem send_loop_succ (r : ldns_resolver) (env : Env) (qb : List Nat) (f : Nat) (s : send_state) :
    send_loop r env qb (f + 1) s =
      match send_step r env qb s with
      | step_result.stop => ([], loop_exit.finished s.reply s.reply_bytes s.reply_size)
      | step_result.skip s1 => send_loop r env qb f s1
      | step_result.next e s1 =>
        (e :: (send_loop r env qb f s1).1, (send_loop r env qb f s1).2)
      | step_result.ret_null e => ([e], loop_exit.returned_null)
      | step_result.brk e reply reply_bytes reply_size =>
        ([e], loop_exit.finished reply reply_bytes reply_size) := by
  rw [send_loop]

/-- A transport call whose bytes the decoder rejects is the last one, and the
loop ends by `return NULL`. -/
theorem send_loop_decode_failure (r : ldns_resolver) (env : Env) (qb : List Nat) (fuel : Nat) :
    ∀ (s : send_state) (a : List attempt) (k : Nat) (bytes : List Nat) (b : List attempt),
      (send_loop r env qb fuel s).1 = a ++ { i := k, reply_bytes := some bytes } :: b →
      (env.ldns_wire2pkt bytes bytes.length).1 = false →
      b = [] ∧ (send_loop r env qb fuel s).2 = loop_exit.returned_null := by
  induction fuel with
  | zero =>
    intro s a k bytes b h _
    simp [send_loop] at h
  | succ f ih =>
    intro s a k bytes b h hd
    rw [send_loop_succ] at h ⊢
    cases hstep : send_step r env qb s with
    | stop => simp [hstep] at h
    | skip s1 =>
      simp only [hstep] at h ⊢
      exact ih s1 a k bytes b h hd
    | next e s1 =>
      simp only [hstep] at h ⊢
      obtain ⟨_, hn⟩ := send_step_next r env qb s e s1 hstep
      cases a with
      | nil =>
        simp only [List.nil_append, List.cons.injEq] at h
        obtain ⟨he, _⟩ := h
        subst he
        rcases hn with ⟨h1, _⟩ | ⟨bytes1, h1, h2, _⟩
        · simp at h1
        · simp only [Option.some.injEq] at h1
          subst h1
          rw [hd] at h2
          cases h2
      | cons a0 a1 =>
        simp only [List.cons_append, List.cons.injEq] at h
        exact ih s1 a1 k bytes b h.2 hd
    | ret_null e =>
      simp only [hstep] at h ⊢
      cases a with
      | nil =>
        simp only [List.nil_append, List.cons.injEq] at h
        exact ⟨h.2.symm, trivial⟩
      | cons a0 a1 => simp at h
    | brk e reply rb1 rs1 =>
      simp only [hstep] at h ⊢
      obtain ⟨_, bytes1, h1, _, _, h2, _⟩ := send_step_brk r env qb s e reply rb1 rs1 hstep
      cases a with
      | nil =>
        simp only [List.nil_append, List.cons.injEq] at h
        obtain ⟨he, _⟩ := h
        subst he
        simp only [Option.some.injEq] at h1
        subst h1
        rw [hd] at h2
        cases h2
      | cons a0 a1 => simp at h

/-- A transport call whose bytes decode to a reply is the last one, and the loop
is left with that reply stamped: the time stamps are two consecutive clock
readings, the first of them reading number `s.ticks + a.length` when all the
earlier calls failed, and the responder is the nameserver the call went to. -/
theorem send_loop_decoded_reply (r : ldns_resolver) (env : Env) (qb : List Nat) (fuel : Nat) :
    ∀ (s : send_state) (a : List attempt) (k : Nat) (bytes : List Nat) (b : List attempt)
      (p : ldns_pkt),
      (send_loop r env qb fuel s).1 = a ++ { i := k, reply_bytes := some bytes } :: b →
      (env.ldns_wire2pkt bytes bytes.length).1 = true →
      (env.ldns_wire2pkt bytes bytes.length).2 = some p →
      b = [] ∧ ∃ (hk : k < r._nameservers.length) (t : Nat),
        (send_loop r env qb fuel s).2
          = loop_exit.finished
              (some (stamp p (env.gettimeofday t) (env.gettimeofday (t + 1))
                (r._nameservers.get ⟨k, hk⟩)))
              (some bytes) bytes.length
        ∧ ((∀ e ∈ a, e.reply_bytes = none) → t = s.ticks + a.length) := by
  induction fuel with
  | zero =>
    intro s a k bytes b p h _ _
    simp [send_loop] at h
  | succ f ih =>
    intro s a k bytes b p h hd1 hd2
    rw [send_loop_succ] at h ⊢
    cases hstep : send_step r env qb s with
    | stop => simp [hstep] at h
    | skip s1 =>
      simp only [hstep] at h ⊢
      have hs1 := send_step_skip r env qb s s1 hstep
      obtain ⟨hb, hk, t, h1, h2⟩ := ih s1 a k bytes b p h hd1 hd2
      refine ⟨hb, hk, t, h1, fun hall => ?_⟩
      rw [h2 hall, hs1]
    | next e s1 =>
      simp only [hstep] at h ⊢
      obtain ⟨_, hn⟩ := send_step_next r env qb s e s1 hstep
      cases a with
      | nil =>
        simp only [List.nil_append, List.cons.injEq] at h
        obtain ⟨he, _⟩ := h
        subst he
        rcases hn with ⟨h1, _⟩ | ⟨bytes1, h1, _, h2⟩
        · simp at h1
        · simp only [Option.some.injEq] at h1
          subst h1
          rw [hd2] at h2
          cases h2
      | cons a0 a1 =>
        simp only [List.cons_append, List.cons.injEq] at h
        obtain ⟨he, hrest⟩ := h
        subst he
        obtain ⟨hb, hk, t, h1, h2⟩ := ih s1 a1 k bytes b p hrest hd1 hd2
        refine ⟨hb, hk, t, h1, fun hall => ?_⟩
        have h0 : e.reply_bytes = none := hall e (List.mem_cons_self _ _)
        have hticks : s1.ticks = s.ticks + 1 := by
          rcases hn with ⟨_, h3⟩ | ⟨bytes1, h3, _, _⟩
          · exact h3
          · rw [h0] at h3; cases h3
        rw [h2 (fun e1 he1 => hall e1 (List.mem_cons_of_mem _ he1)), hticks]
        simp only [List.length_cons]
        omega
    | ret_null e =>
      simp only [hstep] at h ⊢
      rcases send_step_ret_null r env qb s e hstep with ⟨h1, _⟩ | ⟨bytes1, h1, h2⟩
      · cases a with
        | nil =>
          simp only [List.nil_append, List.cons.injEq] at h
          obtain ⟨he, _⟩ := h
          subst he
          simp at h1
        | cons a0 a1 => simp at h
      · cases a with
        | nil =>
          simp only [List.nil_append, List.cons.injEq] at h
          obtain ⟨he, _⟩ := h
          subst he
          simp only [Option.some.injEq] at h1
          subst h1
          rw [hd1] at h2
          cases h2
        | cons a0 a1 => simp at h
    | brk e reply rb1 rs1 =>
      simp only [hstep] at h ⊢
      obtain ⟨hi, bytes1, h1, h2, h3, _, h5⟩ := send_step_brk r env qb s e reply rb1 rs1 hstep
      cases a with
      | nil =>
        simp only [List.nil_append, List.cons.injEq] at h
        obtain ⟨he, hb⟩ := h
        subst he
        simp only [Option.some.injEq] at h1
        subst h1
        rw [hd2] at h5
        refine ⟨hb.symm, hi, s.ticks, ?_, fun _ => by simp⟩
        rw [h2, h3, h5]
        rfl
      | cons a0 a1 => simp at h

/-- With the `fail` directive set, a failed first transport call is the only
one, and the loop ends by `return NULL`. -/
theorem send_loop_fail_fast (r : ldns_resolver) (env : Env) (qb : List Nat) (fuel : Nat)
    (hfail : r._fail = true) :
    ∀ (s : send_state) (e : attempt) (b : List attempt),
      (send_loop r env qb fuel s).1 = e :: b → e.reply_bytes = none →
      b = [] ∧ (send_loop r env qb fuel s).2 = loop_exit.returned_null := by
  induction fuel with
  | zero =>
    intro s e b h _
    simp [send_loop] at h
  | succ f ih =>
    intro s e b h he
    rw [send_loop_succ] at h ⊢
    cases hstep : send_step r env qb s with
    | stop => simp [hstep] at h
    | skip s1 =>
      simp only [hstep] at h ⊢
      exact ih s1 e b h he
    | next e1 s1 =>
      obtain ⟨hf, _⟩ := send_step_next r env qb s e1 s1 hstep
      rw [hfail] at hf
      cases hf
    | ret_null e1 =>
      simp only [hstep, List.cons.injEq] at h ⊢
      exact ⟨h.2.symm, trivial⟩
    | brk e1 reply rb1 rs1 =>
      simp only [hstep, List.cons.injEq] at h ⊢
      obtain ⟨_, bytes1, h1, _⟩ := send_step_brk r env qb s e1 reply rb1 rs1 hstep
      rw [h.1, he] at h1
      cases h1

/-- The loop does not call the TSIG verifier. -/
theorem send_loop_verifier_irrelevant (r : ldns_resolver) (env : Env) (qb : List Nat)
    (v : Option ldns_pkt → List Nat → Nat → List Nat → List Nat → List Nat → Bool)
    (fuel : Nat) :
    ∀ s : send_state,
      send_loop r { env with ldns_pkt_tsig_verify := v } qb fuel s = send_loop r env qb fuel s := by
  have hstep : ∀ s, send_step r { env with ldns_pkt_tsig_verify := v } qb s
      = send_step r env qb s := fun s => rfl
  induction fuel with
  | zero => intro s; rfl
  | succ f ih =>
    intro s
    rw [send_loop_succ, send_loop_succ, hstep]
    cases send_step r env qb s <;> simp only [ih]

/-! ## `ldns_send` as a whole -/

theorem after_loop_attempts (r : ldns_resolver) (env : Env) (m : Option (List Nat))
    (res : List attempt × loop_exit) : (after_loop r env m res).attempts = res.1 := by
  unfold after_loop
  split
  · rfl
  · rfl
  · split
    · split <;> rfl
    · rfl

theorem after_loop_returned_null (r : ldns_resolver) (env : Env) (m : Option (List Nat))
    (res : List attempt × loop_exit) (h : res.2 = loop_exit.returned_null) :
    (after_loop r env m res).ret = some none := by
  unfold after_loop
  rw [h]

theorem after_loop_finished_ret (r : ldns_resolver) (env : Env) (m : Option (List Nat))
    (res : List attempt × loop_exit) (reply : Option ldns_pkt) (rb : Option (List Nat))
    (rs : Nat) (h : res.2 = loop_exit.finished reply rb rs) :
    (after_loop r env m res).ret = some reply := by
  unfold after_loop
  rw [h]
  simp only
  split
  · split <;> rfl
  · rfl

/-- Either `ldns_send` returned before the loop without any transport call, or
it is the loop followed by the code after the loop. -/
theorem ldns_send_cases (fuel : Nat) (r : ldns_resolver) (env : Env)
    (query_pkt : Option ldns_pkt) :
    (ldns_send fuel r env query_pkt).attempts = []
    ∨ ∃ q qb, query_pkt = some q ∧ env.ldns_pkt2buffer_wire q = some qb
        ∧ ldns_send fuel r env query_pkt
          = after_loop r env (tsig_mac_of q) (send_loop r env qb fuel send_init) := by
  cases query_pkt with
  | none => left; rfl
  | some q =>
    cases hqb : env.ldns_pkt2buffer_wire q with
    | none => left; simp [ldns_send, hqb]
    | some qb => right; exact ⟨q, qb, rfl, hqb, by simp [ldns_send, hqb]⟩

/-- C4: with `fail` set, if the first transport call made by `ldns_send` (the
head of the list of calls of the run, when there is one) returned `NULL`, then
the run makes at most one transport call in total, and having made one it has
returned `NULL`. -/
theorem C4_fail_fast_returns_after_first_failure (fuel : Nat) (r : ldns_resolver) (env : Env)
    (query_pkt : Option ldns_pkt) (hfail : r._fail = true)
    (hfirst : ∀ e, (ldns_send fuel r env query_pkt).attempts.head? = some e →
      e.reply_bytes = none) :
    (ldns_send fuel r env query_pkt).attempts.length ≤ 1
    ∧ ((ldns_send fuel r env query_pkt).attempts ≠ [] →
        (ldns_send fuel r env query_pkt).ret = some none) := by
  rcases ldns_send_cases fuel r env query_pkt with h0 | ⟨q, qb, _, _, hrun⟩
  · rw [h0]; simp
  · rw [hrun] at hfirst ⊢
    rw [after_loop_attempts] at hfirst ⊢
    cases hlog : (send_loop r env qb fuel send_init).1 with
    | nil => simp
    | cons e b =>
      have he : e.reply_bytes = none := hfirst e (by rw [hlog]; rfl)
      obtain ⟨hb, hexit⟩ := send_loop_fail_fast r env qb fuel hfail send_init e b hlog he
      subst hb
      exact ⟨by simp, fun _ => after_loop_returned_null r env _ _ hexit⟩

/-- C7: if some transport call of the run (to nameserver `k`, after the calls
`a`) returned bytes and the decoder rejects them, then no transport call follows
it (`b` is empty) and `ldns_send` returns `NULL`, whatever the `fail` flag and
whatever the other nameservers would have answered. -/
theorem C7_decode_failure_stops_the_send (fuel : Nat) (r : ldns_resolver) (env : Env)
    (query_pkt : Option ldns_pkt) (a : List attempt) (k : Nat) (bytes : List Nat)
    (b : List attempt)
    (hlog : (ldns_send fuel r env query_pkt).attempts
      = a ++ { i := k, reply_bytes := some bytes } :: b)
    (hdec : (env.ldns_wire2pkt bytes bytes.length).1 = false) :
    b = [] ∧ (ldns_send fuel r env query_pkt).ret = some none := by
  rcases ldns_send_cases fuel r env query_pkt with h0 | ⟨q, qb, _, _, hrun⟩
  · rw [h0] at hlog; simp at hlog
  · rw [hrun] at hlog ⊢
    rw [after_loop_attempts] at hlog
    obtain ⟨hb, hexit⟩ := send_loop_decode_failure r env qb fuel send_init a k bytes b hlog hdec
    exact ⟨hb, after_loop_returned_null r env _ _ hexit⟩

/-- Once a transport call has returned bytes that decode: if the transport calls
`a` made before the one to nameserver `k` all failed, the call to `k` returned
bytes and they decode to a reply `p`, then no transport call follows (`b` is
empty) and `ldns_send` returns `p` stamped with the query time of this call
alone (the two clock readings taken around it), the capture time, and
nameserver `k` as responder. -/
theorem ldns_send_decoded_call_is_last (fuel : Nat) (r : ldns_resolver) (env : Env)
    (query_pkt : Option ldns_pkt) (a : List attempt) (k : Nat) (bytes : List Nat)
    (b : List attempt) (p : ldns_pkt)
    (hlog : (ldns_send fuel r env query_pkt).attempts
      = a ++ { i := k, reply_bytes := some bytes } :: b)
    (hearlier : ∀ e ∈ a, e.reply_bytes = none)
    (hdec : env.ldns_wire2pkt bytes bytes.length = (true, some p)) :
    b = [] ∧ ∃ hk : k < r._nameservers.length,
      (ldns_send fuel r env query_pkt).ret
        = some (some { p with
            _querytime :=
              querytime (env.gettimeofday a.length) (env.gettimeofday (a.length + 1))
            _answerfrom := some (r._nameservers.get ⟨k, hk⟩)
            _when := some (env.gettimeofday a.length).tv_sec }) := by
  rcases ldns_send_cases fuel r env query_pkt with h0 | ⟨q, qb, _, _, hrun⟩
  · rw [h0] at hlog; simp at hlog
  · rw [hrun] at hlog ⊢
    rw [after_loop_attempts] at hlog
    obtain ⟨hb, hk, t, hexit, ht⟩ := send_loop_decoded_reply r env qb fuel send_init a k bytes b p
      hlog (by rw [hdec]) (by rw [hdec])
    have ht0 : t = a.length := by
      rw [ht hearlier]; simp [send_init]
    subst ht0
    exact ⟨hb, hk, after_loop_finished_ret r env _ _ _ _ _ hexit⟩

theorem after_loop_finished_tsig (r : ldns_resolver) (env : Env) (mac : List Nat)
    (res : List attempt × loop_exit) (reply : Option ldns_pkt) (bytes : List Nat) (rs : Nat)
    (h : res.2 = loop_exit.finished reply (some bytes) rs) :
    (after_loop r env (some mac) res).verify_calls
      = [{ pkt := reply, wire := bytes, wirelen := rs, key_name := r._tsig_keyname,
           key_data := r._tsig_keydata, mac := mac }]
    ∧ (after_loop r env (some mac) res).warnings
      = if env.ldns_pkt_tsig_verify reply bytes rs r._tsig_keyname r._tsig_keydata mac = true
        then [] else [diagnostic.tsig_verification_failed] := by
  unfold after_loop
  rw [h]
  simp only
  split <;> exact ⟨rfl, rfl⟩

/-- C6: when the query carries a TSIG record (with its MAC in rdata field 3) and
some transport call returns bytes that decode to a reply, `ldns_send` calls the
verifier exactly once, with the stamped reply it is about to return, the raw
bytes and their length, the resolver's key name and key data, and the MAC of the
query's TSIG record.  It prints one warning when the verifier answers false and
none otherwise, and it returns the same reply whatever the verifier answers. -/
theorem C6_tsig_checked_once_and_not_enforced (fuel : Nat) (r : ldns_resolver) (env : Env)
    (q : ldns_pkt) (rr : ldns_rr) (mac : List Nat) (a : List attempt) (k : Nat)
    (bytes : List Nat) (b : List attempt) (p : ldns_pkt)
    (hq : q._tsig_rr = some rr) (hmac : ldns_rr_rdf rr 3 = some mac)
    (hlog : (ldns_send fuel r env (some q)).attempts
      = a ++ { i := k, reply_bytes := some bytes } :: b)
    (hdec : env.ldns_wire2pkt bytes bytes.length = (true, some p)) :
    ∃ (hk : k < r._nameservers.length) (t : Nat) (reply : ldns_pkt),
      reply = stamp p (env.gettimeofday t) (env.gettimeofday (t + 1))
          (r._nameservers.get ⟨k, hk⟩)
      ∧ (ldns_send fuel r env (some q)).ret = some (some reply)
      ∧ (ldns_send fuel r env (some q)).verify_calls
          = [{ pkt := some reply, wire := bytes, wirelen := bytes.length,
               key_name := r._tsig_keyname, key_data := r._tsig_keydata, mac := mac }]
      ∧ (env.ldns_pkt_tsig_verify (some reply) bytes bytes.length r._tsig_keyname
            r._tsig_keydata mac = false →
          (ldns_send fuel r env (some q)).warnings = [diagnostic.tsig_verification_failed])
      ∧ (env.ldns_pkt_tsig_verify (some reply) bytes bytes.length r._tsig_keyname
            r._tsig_keydata mac = true →
          (ldns_send fuel r env (some q)).warnings = [])
      ∧ ∀ v, (ldns_send fuel r { env with ldns_pkt_tsig_verify := v } (some q)).ret
          = some (some reply) := by
  cases hqb : env.ldns_pkt2buffer_wire q with
  | none =>
    have : (ldns_send fuel r env (some q)).attempts = [] := by simp [ldns_send, hqb]
    rw [this] at hlog
    simp at hlog
  | some qb =>
    have hrun : ldns_send fuel r env (some q)
        = after_loop r env (some mac) (send_loop r env qb fuel send_init) := by
      simp [ldns_send, hqb, tsig_mac_of, hq, hmac]
    rw [hrun, after_loop_attempts] at hlog
    obtain ⟨_, hk, t, hexit, _⟩ := send_loop_decoded_reply r env qb fuel send_init a k bytes b p
      hlog (by rw [hdec]) (by rw [hdec])
    obtain ⟨hcalls, hwarn⟩ := after_loop_finished_tsig r env mac _ _ _ _ hexit
    refine ⟨hk, t, _, rfl, ?_, ?_, ?_, ?_, ?_⟩
    · rw [hrun]
      exact after_loop_finished_ret r env _ _ _ _ _ hexit
    · rw [hrun, hcalls]
    · intro hv
      rw [hrun, hwarn, hv]
      rfl
    · intro hv
      rw [hrun, hwarn, hv]
      rfl
    · intro v
      have hrun1 : ldns_send fuel r { env with ldns_pkt_tsig_verify := v } (some q)
          = after_loop r { env with ldns_pkt_tsig_verify := v } (some mac)
              (send_loop r env qb fuel send_init) := by
        simp [ldns_send, hqb, tsig_mac_of, hq, hmac, send_loop_verifier_irrelevant]
      rw [hrun1]
      exact after_loop_finished_ret r _ _ _ _ _ _ hexit

/-! ## All transports fail -/

theorem send_step_of_lt (r : ldns_resolver) (env : Env) (qb : List Nat) (s : send_state)
    (h : s.i < r._nameservers.length) :
    send_step r env qb s =
      if family_mismatch r (ldns_rdf2native_sockaddr_storage (r._nameservers.get ⟨s.i, h⟩))
          = true then
        step_result.skip { s with i := (s.i + 1) % 256 }
      else
        after_transport r env s (r._nameservers.get ⟨s.i, h⟩)
          (send_query r env qb s.sends
            (ldns_rdf2native_sockaddr_storage (r._nameservers.get ⟨s.i, h⟩))) := by
  unfold send_step
  rw [dif_pos (show s.i < ldns_resolver_nameserver_count r from h)]

/-- With 256 nameservers that never answer, the loop never ends: after nameserver
255 the `uint8_t` index is back at 0. -/
theorem send_loop_256 (qb : List Nat) (fuel : Nat) :
    ∀ s : send_state, s.i < 256 →
      send_loop resolver_256 env_silent qb fuel s
        = ((List.range fuel).map fun n => { i := (s.i + n) % 256, reply_bytes := none },
            loop_exit.out_of_fuel) := by
  induction fuel with
  | zero => intro s _; rfl
  | succ f ih =>
    intro s hs
    have hlen : s.i < resolver_256._nameservers.length := by
      show s.i < (List.replicate 256 ns_a).length
      rw [List.length_replicate]
      exact hs
    have hget : resolver_256._nameservers.get ⟨s.i, hlen⟩ = ns_a := by
      show (List.replicate 256 ns_a).get ⟨s.i, _⟩ = ns_a
      rw [List.get_eq_getElem, List.getElem_replicate]
    have hmis : family_mismatch resolver_256 (ldns_rdf2native_sockaddr_storage ns_a) = false := by
      decide
    have hq : send_query resolver_256 env_silent qb s.sends
        (ldns_rdf2native_sockaddr_storage ns_a) = none := rfl
    have hfail : resolver_256._fail = false := rfl
    have hstep : send_step resolver_256 env_silent qb s
        = step_result.next { i := s.i, reply_bytes := none }
            { s with i := (s.i + 1) % 256, sends := s.sends + 1, ticks := s.ticks + 1,
                     reply_bytes := none } := by
      rw [send_step_of_lt _ _ _ _ hlen, hget, hmis, hq]
      simp [after_transport, hfail]
    rw [send_loop_succ, hstep]
    simp only
    rw [ih _ (Nat.mod_lt _ (by decide))]
    simp only [List.range_succ_eq_map, List.map_cons, List.map_map, Nat.add_zero,
      Nat.mod_eq_of_lt hs, Prod.mk.injEq, List.cons.injEq, true_and, and_true]
    apply List.map_congr_left
    intro n _
    simp only [Function.comp, attempt.mk.injEq, and_true]
    omega

/-- C3: with 256 nameservers that all pass the family filter and never answer,
and `fail` clear, `ldns_send` does not try each nameserver once and return: it
never returns, and its transport calls go to the nameservers
`0, 1, ..., 255, 0, 1, ...` for as long as it runs (after 257 calls nameserver 0
has been tried twice). -/
theorem C3_index_wraps_after_255 (fuel : Nat) :
    (ldns_send fuel resolver_256 env_silent (some sample_query)).ret = none
    ∧ (ldns_send fuel resolver_256 env_silent (some sample_query)).attempts
        = (List.range fuel).map fun n => { i := n % 256, reply_bytes := none } := by
  have hrun : ldns_send fuel resolver_256 env_silent (some sample_query)
      = after_loop resolver_256 env_silent (tsig_mac_of sample_query)
          (send_loop resolver_256 env_silent sample_query.content fuel send_init) := rfl
  rw [hrun, send_loop_256 _ fuel send_init (by decide)]
  constructor
  · rfl
  · rw [after_loop_attempts]
    simp [send_init]

/-- What the loop does when every transport call fails, `fail` is clear and
there are at most 255 nameservers: starting at the nameserver that follows
`pre`, one call for each remaining nameserver that passes the family filter, in
list order, and then the loop condition is false. -/
theorem send_loop_all_fail (r : ldns_resolver) (env : Env) (qb : List Nat)
    (hfail : r._fail = false) (hlen : r._nameservers.length ≤ 255)
    (hdead : ∀ n ns, send_query r env qb n ns = none) :
    ∀ (suf pre : List ldns_rdf) (fuel : Nat) (s : send_state),
      r._nameservers = pre ++ suf → s.i = pre.length → s.reply = none →
      s.reply_bytes = none → suf.length + 1 ≤ fuel →
      send_loop r env qb fuel s
        = ((((suf.enumFrom pre.length).filter fun x =>
              !family_mismatch r (ldns_rdf2native_sockaddr_storage x.2)).map fun x =>
              ({ i := x.1, reply_bytes := none } : attempt)),
            loop_exit.finished none none s.reply_size) := by
  intro suf
  induction suf with
  | nil =>
    intro pre fuel s hns hi hr hrb hfuel
    obtain ⟨f, rfl⟩ : ∃ f, fuel = f + 1 := ⟨fuel - 1, by omega⟩
    have hstop : send_step r env qb s = step_result.stop := by
      unfold send_step
      rw [dif_neg]
      simp [ldns_resolver_nameserver_count, hns, hi]
    rw [send_loop_succ, hstop]
    simp [hr, hrb]
  | cons x xs ih =>
    intro pre fuel s hns hi hr hrb hfuel
    obtain ⟨f, rfl⟩ : ∃ f, fuel = f + 1 := ⟨fuel - 1, by omega⟩
    simp only [List.length_cons] at hfuel
    have hlt : s.i < r._nameservers.length := by
      rw [hns, hi]; simp
    have hget : r._nameservers.get ⟨s.i, hlt⟩ = x := by
      rw [List.get_eq_getElem]
      exact List.getElem_of_append hns hi.symm
    have hnext : (s.i + 1) % 256 = (pre ++ [x]).length := by
      rw [List.length_append, List.length_singleton, ← hi]
      exact Nat.mod_eq_of_lt (by omega)
    have hns1 : r._nameservers = (pre ++ [x]) ++ xs := by
      rw [hns]; simp
    have henum : List.enumFrom pre.length (x :: xs)
        = (pre.length, x) :: List.enumFrom (pre ++ [x]).length xs := by
      simp [List.enumFrom]
    rw [send_loop_succ, send_step_of_lt r env qb s hlt, hget, henum, List.filter_cons]
    by_cases hm : family_mismatch r (ldns_rdf2native_sockaddr_storage x) = true
    · simp only [hm, if_true, Bool.not_true, Bool.false_eq_true, if_false]
      exact ih (pre ++ [x]) f { s with i := (s.i + 1) % 256 } hns1 hnext hr hrb (by omega)
    · have hstep : after_transport r env s x none
          = step_result.next { i := s.i, reply_bytes := none }
              { s with i := (s.i + 1) % 256, sends := s.sends + 1, ticks := s.ticks + 1,
                       reply_bytes := none } := by
        simp [after_transport, hfail]
      have hm1 : family_mismatch r (ldns_rdf2native_sockaddr_storage x) = false := by
        simpa using hm
      simp only [hm1, Bool.false_eq_true, if_false, Bool.not_false, if_true, hdead, hstep]
      rw [ih (pre ++ [x]) f
        { s with i := (s.i + 1) % 256, sends := s.sends + 1, ticks := s.ticks + 1,
                 reply_bytes := none } hns1 hnext hr rfl (by omega)]
      simp [hm, hi]

/-- For at most 255 nameservers, `fail` clear and transports that all fail:
`ldns_send` makes one transport call for each nameserver that passes the family
filter, in list order, none for the others, and returns `NULL`. -/
theorem ldns_send_all_fail_bounded (fuel : Nat) (r : ldns_resolver) (env : Env)
    (q : ldns_pkt) (qb : List Nat)
    (hfail : r._fail = false) (hlen : r._nameservers.length ≤ 255)
    (hqb : env.ldns_pkt2buffer_wire q = some qb)
    (hdead : ∀ n ns, send_query r env qb n ns = none)
    (hfuel : r._nameservers.length + 1 ≤ fuel) :
    (ldns_send fuel r env (some q)).ret = some none
    ∧ (ldns_send fuel r env (some q)).attempts
        = ((r._nameservers.enum.filter fun x =>
              !family_mismatch r (ldns_rdf2native_sockaddr_storage x.2)).map fun x =>
              ({ i := x.1, reply_bytes := none } : attempt))
    ∧ (ldns_send fuel r env (some q)).verify_calls = [] := by
  have hrun : ldns_send fuel r env (some q)
      = after_loop r env (tsig_mac_of q) (send_loop r env qb fuel send_init) := by
    simp [ldns_send, hqb]
  have hloop := send_loop_all_fail r env qb hfail hlen hdead r._nameservers [] fuel send_init
    rfl rfl rfl rfl hfuel
  rw [hrun, hloop]
  refine ⟨?_, ?_, ?_⟩
  · simp [after_loop]
  · rw [after_loop_attempts]
    rfl
  · simp only [after_loop]
    split <;> simp_all

/-! ## The first nameserver that answers -/

/-- From the nameserver that follows `pre`: when the nameservers `mid` are
skipped or fail, and the next one, `nsk`, passes the filter and answers bytes
that decode to `p`, the loop makes one call per passing nameserver of `mid`, then
the call to `nsk`, and is left with the reply of `nsk` stamped. -/
theorem send_loop_first_success (r : ldns_resolver) (env : Env) (qb : List Nat)
    (hfail : r._fail = false) (nsk : ldns_rdf) (post : List ldns_rdf) (bytes : List Nat)
    (p : ldns_pkt)
    (hpass : family_mismatch r (ldns_rdf2native_sockaddr_storage nsk) = false)
    (hdec : env.ldns_wire2pkt bytes bytes.length = (true, some p)) :
    ∀ (mid pre : List ldns_rdf) (fuel : Nat) (s : send_state),
      r._nameservers = pre ++ (mid ++ nsk :: post) → pre.length + mid.length ≤ 255 →
      s.i = pre.length →
      (∀ x ∈ mid, family_mismatch r (ldns_rdf2native_sockaddr_storage x) = false →
        ∀ n, send_query r env qb n (ldns_rdf2native_sockaddr_storage x) = none) →
      send_query r env qb
          (s.sends + (mid.filter fun x =>
            !family_mismatch r (ldns_rdf2native_sockaddr_storage x)).length)
          (ldns_rdf2native_sockaddr_storage nsk) = some bytes →
      mid.length + 1 ≤ fuel →
      send_loop r env qb fuel s
        = ((((mid.enumFrom pre.length).filter fun x =>
                !family_mismatch r (ldns_rdf2native_sockaddr_storage x.2)).map fun x =>
                ({ i := x.1, reply_bytes := none } : attempt))
              ++ [{ i := pre.length + mid.length, reply_bytes := some bytes }],
            loop_exit.finished
              (some (stamp p
                (env.gettimeofday (s.ticks + (mid.filter fun x =>
                  !family_mismatch r (ldns_rdf2native_sockaddr_storage x)).length))
                (env.gettimeofday (s.ticks + (mid.filter fun x =>
                  !family_mismatch r (ldns_rdf2native_sockaddr_storage x)).length + 1))
                nsk))
              (some bytes) bytes.length) := by
  intro mid
  induction mid with
  | nil =>
    intro pre fuel s hns hle hi _ hans hfuel
    obtain ⟨f, rfl⟩ : ∃ f, fuel = f + 1 := ⟨fuel - 1, by omega⟩
    simp only [List.nil_append] at hns
    simp only [List.filter_nil, List.length_nil, Nat.add_zero] at hans
    have hlt : s.i < r._nameservers.length := by
      rw [hns, hi]; simp
    have hget : r._nameservers.get ⟨s.i, hlt⟩ = nsk := by
      rw [List.get_eq_getElem]
      exact List.getElem_of_append hns hi.symm
    have hstep : after_transport r env s nsk (some bytes)
        = step_result.brk { i := s.i, reply_bytes := some bytes }
            (some (stamp p (env.gettimeofday s.ticks) (env.gettimeofday (s.ticks + 1)) nsk))
            (some bytes) bytes.length := by
      simp [after_transport, hdec]
    rw [send_loop_succ, send_step_of_lt r env qb s hlt, hget, hpass]
    simp only [Bool.false_eq_true, if_false, hans, hstep]
    simp [hi]
  | cons x xs ih =>
    intro pre fuel s hns hle hi hdead hans hfuel
    obtain ⟨f, rfl⟩ : ∃ f, fuel = f + 1 := ⟨fuel - 1, by omega⟩
    simp only [List.length_cons] at hfuel hle
    have hns0 : r._nameservers = pre ++ x :: (xs ++ nsk :: post) := by
      rw [hns]; simp
    have hlt : s.i < r._nameservers.length := by
      rw [hns0, hi]; simp
    have hget : r._nameservers.get ⟨s.i, hlt⟩ = x := by
      rw [List.get_eq_getElem]
      exact List.getElem_of_append hns0 hi.symm
    have hnext : (s.i + 1) % 256 = (pre ++ [x]).length := by
      rw [List.length_append, List.length_singleton, ← hi]
      exact Nat.mod_eq_of_lt (by omega)
    have hns1 : r._nameservers = (pre ++ [x]) ++ (xs ++ nsk :: post) := by
      rw [hns0]; simp
    have hle1 : (pre ++ [x]).length + xs.length ≤ 255 := by
      simp only [List.length_append, List.length_singleton]; omega
    have hdead1 : ∀ y ∈ xs, family_mismatch r (ldns_rdf2native_sockaddr_storage y) = false →
        ∀ n, send_query r env qb n (ldns_rdf2native_sockaddr_storage y) = none :=
      fun y hy hp n => hdead y (List.mem_cons_of_mem _ hy) hp n
    have henum : List.enumFrom pre.length (x :: xs)
        = (pre.length, x) :: List.enumFrom (pre ++ [x]).length xs := by
      simp [List.enumFrom]
    have hidx : (pre ++ [x]).length + xs.length = pre.length + (xs.length + 1) := by
      simp only [List.length_append, List.length_singleton]; omega
    rw [send_loop_succ, send_step_of_lt r env qb s hlt, hget, henum]
    by_cases hm : family_mismatch r (ldns_rdf2native_sockaddr_storage x) = true
    · have hcount : (List.filter (fun x => !family_mismatch r (ldns_rdf2native_sockaddr_storage x))
          (x :: xs)) = List.filter (fun x => !family_mismatch r (ldns_rdf2native_sockaddr_storage x))
          xs := by
        simp [List.filter_cons, hm]
      rw [hcount] at hans ⊢
      simp only [hm, if_true]
      rw [ih (pre ++ [x]) f { s with i := (s.i + 1) % 256 } hns1 hle1 hnext hdead1 hans (by omega)]
      simp [List.filter_cons, hm, hidx]
      omega
    · have hm1 : family_mismatch r (ldns_rdf2native_sockaddr_storage x) = false := by
        simpa using hm
      have hcount : (List.filter (fun x => !family_mismatch r (ldns_rdf2native_sockaddr_storage x))
          (x :: xs)).length
          = (List.filter (fun x => !family_mismatch r (ldns_rdf2native_sockaddr_storage x))
              xs).length + 1 := by
        simp [List.filter_cons, hm1]
      rw [hcount] at hans ⊢
      have hstep : after_transport r env s x none
          = step_result.next { i := s.i, reply_bytes := none }
              { s with i := (s.i + 1) % 256, sends := s.sends + 1, ticks := s.ticks + 1,
                       reply_bytes := none } := by
        simp [after_transport, hfail]
      simp only [hm1, Bool.false_eq_true, if_false, hdead x (List.mem_cons_self _ _) hm1, hstep]
      rw [ih (pre ++ [x]) f
        { s with i := (s.i + 1) % 256, sends := s.sends + 1, ticks := s.ticks + 1,
                 reply_bytes := none } hns1 hle1 hnext hdead1
          (by simpa [Nat.add_assoc, Nat.add_comm 1] using hans) (by omega)]
      simp [List.filter_cons, hm1, hidx, hi, Nat.add_assoc, Nat.add_comm 1]

/-- The family test of the code is the filter of the spec. -/
theorem family_mismatch_eq_conflicts (r : ldns_resolver) (x : ldns_rdf) :
    family_mismatch r (ldns_rdf2native_sockaddr_storage x) = family_conflicts r._ip6 x.family := by
  cases hp : r._ip6 <;> cases hf : x.family <;>
    simp [family_mismatch, family_conflicts, ldns_rdf2native_sockaddr_storage, hp, hf]

/-- Stated on the inputs, for a nameserver at an index the 8-bit loop counter can
reach (at most 255 nameservers before it): when `fail` is clear, every
nameserver before `nsk` whose family does not conflict with the preference
fails whenever it is asked, and `nsk` does not conflict and answers bytes that
decode to `p`, then `ldns_send` (with fuel for one pass per nameserver up to
`nsk`) returns `p` stamped with `nsk` as responder, after exactly one call to
each non-conflicting nameserver before `nsk`, in list order, and the call to
`nsk`.  Nameservers whose family conflicts are not asked, whatever they would
answer. -/
theorem ldns_send_first_success_bounded (fuel : Nat) (r : ldns_resolver) (env : Env)
    (q : ldns_pkt) (qb : List Nat) (pre : List ldns_rdf) (nsk : ldns_rdf) (post : List ldns_rdf)
    (bytes : List Nat) (p : ldns_pkt)
    (hfail : r._fail = false) (hqb : env.ldns_pkt2buffer_wire q = some qb)
    (hns : r._nameservers = pre ++ nsk :: post) (hle : pre.length ≤ 255)
    (hdead : ∀ x ∈ pre, family_conflicts r._ip6 x.family = false →
      ∀ n, send_query r env qb n (ldns_rdf2native_sockaddr_storage x) = none)
    (hpass : family_conflicts r._ip6 nsk.family = false)
    (hans : send_query r env qb
        (pre.filter fun x => !family_conflicts r._ip6 x.family).length
        (ldns_rdf2native_sockaddr_storage nsk) = some bytes)
    (hdec : env.ldns_wire2pkt bytes bytes.length = (true, some p))
    (hfuel : pre.length + 1 ≤ fuel) :
    (ldns_send fuel r env (some q)).ret
      = some (some (stamp p
          (env.gettimeofday (pre.filter fun x => !family_conflicts r._ip6 x.family).length)
          (env.gettimeofday
            ((pre.filter fun x => !family_conflicts r._ip6 x.family).length + 1))
          nsk))
    ∧ (ldns_send fuel r env (some q)).attempts
      = ((pre.enum.filter fun x => !family_conflicts r._ip6 x.2.family).map fun x =>
            ({ i := x.1, reply_bytes := none } : attempt))
          ++ [{ i := pre.length, reply_bytes := some bytes }] := by
  have hfm : ∀ x : ldns_rdf, family_conflicts r._ip6 x.family
      = family_mismatch r (ldns_rdf2native_sockaddr_storage x) :=
    fun x => (family_mismatch_eq_conflicts r x).symm
  simp only [hfm] at hdead hpass hans ⊢
  have hrun : ldns_send fuel r env (some q)
      = after_loop r env (tsig_mac_of q) (send_loop r env qb fuel send_init) := by
    simp [ldns_send, hqb]
  have hloop := send_loop_first_success r env qb hfail nsk post bytes p hpass hdec pre [] fuel
    send_init (by simpa using hns) (by simpa using hle) rfl hdead
    (by simpa [send_init] using hans) hfuel
  have h0 : send_init.sends = 0 := rfl
  have h1 : send_init.ticks = 0 := rfl
  simp only [h0, h1, Nat.zero_add, List.length_nil] at hloop
  constructor
  · rw [hrun]
    exact after_loop_finished_ret r env _ _ _ _ _ (by rw [hloop])
  · rw [hrun, after_loop_attempts, hloop]
    rfl

/-- The bounded statement at a sample input that exercises the filter: IPv4
only, nameservers `[C, A, B]` where `C` is IPv6 and would answer, `A` is silent
and `B` answers.  `C` is not asked; the calls go to `A` and `B`, and the result
is the reply of `B`, attributed to `B`, with the query time of the second call. -/
theorem ldns_send_first_success_bounded_sample :
    (ldns_send 3 resolver_v4only (sample_env all_but_a_answer decode_ok true)
        (some sample_query)).ret
      = some (some { sample_reply with
          _querytime := 1000, _answerfrom := some ns_b, _when := some 101 })
    ∧ (ldns_send 3 resolver_v4only (sample_env all_but_a_answer decode_ok true)
        (some sample_query)).attempts
      = [{ i := 1, reply_bytes := none }, { i := 2, reply_bytes := some [1, 2, 3] }] := by
  have h := ldns_send_first_success_bounded 3 resolver_v4only
    (sample_env all_but_a_answer decode_ok true) sample_query sample_query.content
    [ns_c, ns_a] ns_b [] [1, 2, 3] sample_reply rfl rfl rfl (by decide)
    (by
      intro x hx hc n
      simp only [List.mem_cons, List.mem_singleton, List.mem_nil_iff, or_false] at hx
      rcases hx with rfl | rfl
      · exact absurd hc (by decide)
      · rfl)
    (by decide) rfl rfl (by decide)
  exact ⟨h.1.trans rfl, h.2.trans rfl⟩

/-- The same run evaluated directly: the IPv6 nameserver at index 0, which would
answer, is not asked under the IPv4-only preference. -/
theorem filtered_nameserver_is_not_asked :
    (ldns_send 3 resolver_v4only (sample_env all_but_a_answer decode_ok true)
        (some sample_query)).attempts
      = [{ i := 1, reply_bytes := none }, { i := 2, reply_bytes := some [1, 2, 3] }]
    ∧ all_but_a_answer (ldns_rdf2native_sockaddr_storage ns_c) = some [1, 2, 3] := by
  decide

/-! ## A nameserver beyond index 255 -/

/-- With at least 256 nameservers of which the first 256 pass the family filter
and never answer, and `fail` clear, the loop never ends and never gets past
index 255: after nameserver 255 the `uint8_t` index is back at 0. -/
theorem send_loop_wraps (r : ldns_resolver) (env : Env) (qb : List Nat)
    (hfail : r._fail = false) (hlen : 256 ≤ r._nameservers.length)
    (hdead : ∀ (i : Nat) (h : i < r._nameservers.length), i < 256 →
      family_mismatch r (ldns_rdf2native_sockaddr_storage (r._nameservers.get ⟨i, h⟩)) = false
      ∧ ∀ n, send_query r env qb n
          (ldns_rdf2native_sockaddr_storage (r._nameservers.get ⟨i, h⟩)) = none)
    (fuel : Nat) :
    ∀ s : send_state, s.i < 256 →
      send_loop r env qb fuel s
        = ((List.range fuel).map fun n => { i := (s.i + n) % 256, reply_bytes := none },
            loop_exit.out_of_fuel) := by
  induction fuel with
  | zero => intro s _; rfl
  | succ f ih =>
    intro s hs
    have hlt : s.i < r._nameservers.length := by omega
    obtain ⟨hmis, hq⟩ := hdead s.i hlt hs
    have hstep : send_step r env qb s
        = step_result.next { i := s.i, reply_bytes := none }
            { s with i := (s.i + 1) % 256, sends := s.sends + 1, ticks := s.ticks + 1,
                     reply_bytes := none } := by
      rw [send_step_of_lt _ _ _ _ hlt, hmis, hq]
      simp [after_transport, hfail]
    rw [send_loop_succ, hstep]
    simp only
    rw [ih _ (Nat.mod_lt _ (by decide))]
    simp only [List.range_succ_eq_map, List.map_cons, List.map_map, Nat.add_zero,
      Nat.mod_eq_of_lt hs, Prod.mk.injEq, List.cons.injEq, true_and, and_true]
    apply List.map_congr_left
    intro n _
    simp only [Function.comp, attempt.mk.injEq, and_true]
    omega

/-- C5: the first nameserver that answers does not win when it sits beyond index
255.  Nameservers: 256 times `A`, then `B`; no family preference, `fail` clear;
`A` never answers, `B` answers bytes that decode.  So `B`, at index 256, is the
first filter-passing nameserver whose transport would succeed, and all earlier
ones fail.  `ldns_send` does not return the reply of `B`: it never returns, and
its transport calls go to the nameservers `0, 1, ..., 255, 0, 1, ...`, never to
`B` (the `uint8_t` index wraps from 255 to 0). -/
theorem C5_answering_nameserver_256_is_never_reached (fuel : Nat) :
    resolver_257._nameservers = List.replicate 256 ns_a ++ [ns_b]
    ∧ resolver_257._fail = false
    ∧ family_mismatch resolver_257 (ldns_rdf2native_sockaddr_storage ns_a) = false
    ∧ family_mismatch resolver_257 (ldns_rdf2native_sockaddr_storage ns_b) = false
    ∧ (∀ n, send_query resolver_257 env_only_b sample_query.content n
          (ldns_rdf2native_sockaddr_storage ns_a) = none)
    ∧ (∀ n, send_query resolver_257 env_only_b sample_query.content n
          (ldns_rdf2native_sockaddr_storage ns_b) = some [1, 2, 3])
    ∧ env_only_b.ldns_wire2pkt [1, 2, 3] 3 = (true, some sample_reply)
    ∧ (ldns_send fuel resolver_257 env_only_b (some sample_query)).ret = none
    ∧ (ldns_send fuel resolver_257 env_only_b (some sample_query)).attempts
        = (List.range fuel).map fun n => { i := n % 256, reply_bytes := none } := by
  have hmis_a : family_mismatch resolver_257 (ldns_rdf2native_sockaddr_storage ns_a) = false := by
    decide
  have hmis_b : family_mismatch resolver_257 (ldns_rdf2native_sockaddr_storage ns_b) = false := by
    decide
  have hqa : ∀ n, send_query resolver_257 env_only_b sample_query.content n
      (ldns_rdf2native_sockaddr_storage ns_a) = none := fun _ => rfl
  have hqb : ∀ n, send_query resolver_257 env_only_b sample_query.content n
      (ldns_rdf2native_sockaddr_storage ns_b) = some [1, 2, 3] := fun _ => rfl
  have hlen : resolver_257._nameservers.length = 257 := by
    show (List.replicate 256 ns_a ++ [ns_b]).length = 257
    rw [List.length_append, List.length_replicate]
    rfl
  have hget : ∀ (i : Nat) (h : i < resolver_257._nameservers.length), i < 256 →
      resolver_257._nameservers.get ⟨i, h⟩ = ns_a := by
    intro i h hi
    show (List.replicate 256 ns_a ++ [ns_b]).get ⟨i, _⟩ = ns_a
    rw [List.get_eq_getElem,
      List.getElem_append_left (by rw [List.length_replicate]; exact hi),
      List.getElem_replicate]
  have hloop := send_loop_wraps resolver_257 env_only_b sample_query.content rfl
    (by rw [hlen]; decide)
    (fun i h hi => by rw [hget i h hi]; exact ⟨hmis_a, hqa⟩) fuel send_init (by decide)
  have hrun : ldns_send fuel resolver_257 env_only_b (some sample_query)
      = after_loop resolver_257 env_only_b (tsig_mac_of sample_query)
          (send_loop resolver_257 env_only_b sample_query.content fuel send_init) := rfl
  refine ⟨rfl, rfl, hmis_a, hmis_b, hqa, hqb, rfl, ?_, ?_⟩
  · rw [hrun, hloop]
    rfl
  · rw [hrun, hloop, after_loop_attempts]
    simp [send_init]

/-! ## The theorems at sample inputs -/

/-- C4 witness: nameservers `[A, B]`, `fail` set, nobody answers: one transport
call, to `A`, and `NULL`. -/
theorem C4_fail_fast_returns_after_first_failure_witness :
    (ldns_send 3 (sample_resolver [ns_a, ns_b] true) (sample_env (fun _ => none) decode_ok true)
        (some sample_query)).attempts.length ≤ 1
    ∧ ((ldns_send 3 (sample_resolver [ns_a, ns_b] true)
          (sample_env (fun _ => none) decode_ok true) (some sample_query)).attempts ≠ [] →
        (ldns_send 3 (sample_resolver [ns_a, ns_b] true)
          (sample_env (fun _ => none) decode_ok true) (some sample_query)).ret = some none) :=
  C4_fail_fast_returns_after_first_failure 3 (sample_resolver [ns_a, ns_b] true)
    (sample_env (fun _ => none) decode_ok true) (some sample_query) rfl
    (fun e he => by
      have hlog : (ldns_send 3 (sample_resolver [ns_a, ns_b] true)
          (sample_env (fun _ => none) decode_ok true) (some sample_query)).attempts
          = [{ i := 0, reply_bytes := none }] := by decide
      rw [hlog] at he
      cases he
      rfl)

/-- C7 witness: nameservers `[A, B]`, `A` is silent, `B` answers bytes that the
decoder rejects: `NULL`, and the call to `B` is the last one. -/
theorem C7_decode_failure_stops_the_send_witness :
    ([] : List attempt) = []
    ∧ (ldns_send 3 (sample_resolver [ns_a, ns_b, ns_c] false)
        (sample_env only_b_answers decode_bad true) (some sample_query)).ret = some none :=
  C7_decode_failure_stops_the_send 3 (sample_resolver [ns_a, ns_b, ns_c] false)
    (sample_env only_b_answers decode_bad true) (some sample_query)
    [{ i := 0, reply_bytes := none }] 1 [1, 2, 3] [] (by decide) rfl

/-- C6 witness: a TSIG query, `A` is silent, `B` replies, the verifier answers
false: one verifier call, one warning, and the reply of `B` is returned. -/
theorem C6_tsig_checked_once_and_not_enforced_witness :
    (ldns_send 3 (sample_resolver [ns_a, ns_b] false) (sample_env only_b_answers decode_ok false)
        (some sample_tsig_query)).ret
      = some (some { sample_reply with
          _querytime := 1000, _answerfrom := some ns_b, _when := some 101 })
    ∧ (ldns_send 3 (sample_resolver [ns_a, ns_b] false)
        (sample_env only_b_answers decode_ok false) (some sample_tsig_query)).warnings
      = [diagnostic.tsig_verification_failed]
    ∧ (ldns_send 3 (sample_resolver [ns_a, ns_b] false)
        (sample_env only_b_answers decode_ok false) (some sample_tsig_query)).verify_calls.length
      = 1 := by
  obtain ⟨_, _, reply, _, _, hcalls, hwarn, _, _⟩ :=
    C6_tsig_checked_once_and_not_enforced 3 (sample_resolver [ns_a, ns_b] false)
      (sample_env only_b_answers decode_ok false) sample_tsig_query
      [[1], [2], [3], [0xAA, 0xBB], [4], [5], [6]] [0xAA, 0xBB]
      [{ i := 0, reply_bytes := none }] 1 [1, 2, 3] [] sample_reply rfl rfl (by decide) rfl
  refine ⟨by decide, hwarn rfl, ?_⟩
  rw [hcalls]
  rfl

end Ldns
